import Mathlib

/-! # gitdrops: droplet reconciliation

A shallow embedding of `pkg/reconcile/droplets.go` and `pkg/reconcile/reconcile.go`.

* Go slices are Lean lists, Go `int` is `Int`, a nil-able pointer is an `Option`.
* A `for ... range` loop over a slice is a `List.foldl` whose accumulator holds the
  variables the loop body assigns; a loop that can `return` early is a structural
  recursion over the slice.
* The map `actionsByID` is a key-unique association list; the order in which Go
  ranges over a map is unspecified, so it is a parameter of `UpdateObjects`.
* The provider gateway (`dolocal.DeleteDroplet`, `dolocal.CreateDroplet`,
  `dolocal.UpdateDroplet`) is an oracle answering each call, given the calls made so
  far, with an optional error; the calls made are collected in a trace.
-/

namespace Gitdrops

/-! ## Data model -/

/-- The `godo.Size` fields the reconciler reads. -/
structure Size where
  Slug : String
  deriving DecidableEq, Repr

/-- The `godo.Image` fields the reconciler reads. -/
structure Image where
  Slug : String
  deriving DecidableEq, Repr

/-- The `godo.Region` fields the reconciler and its tests use. -/
structure Region where
  Slug : String
  Name : String
  deriving DecidableEq, Repr

/-- The `godo.Droplet` fields the reconciler reads; `Size`, `Image` and `Region` are
pointers in Go and may be nil. -/
structure Droplet where
  ID : Int
  Name : String
  Size : Option Size
  Image : Option Image
  Region : Option Region
  VolumeIDs : List String
  deriving DecidableEq, Repr

/-- The `godo.Volume` fields `Populate` reads. -/
structure Volume where
  ID : String
  Name : String
  deriving DecidableEq, Repr

/-- Modelled from the spec: the field `UserData` of `dolocal.LocalDropletCreateRequest`
(the declaration is in package `dolocal`); `translateDropletCreateRequest` reads its
`Data`. -/
structure UserData where
  Data : String
  deriving DecidableEq, Repr

/-- Modelled from the spec: `dolocal.LocalDropletCreateRequest`, the DesiredInstanceSpec
(its declaration is in package `dolocal`); the fields are the ones the reconciler
reads. -/
structure LocalDropletCreateRequest where
  Name : String
  Region : String
  Size : String
  Image : String
  SSHKeyFingerprint : String
  VPCUUID : String
  Volumes : List String
  Tags : List String
  UserData : UserData
  deriving DecidableEq, Repr

/-- Modelled from the spec: `dolocal.Privileges`, the PrivilegePolicy (its declaration
is in package `dolocal`). -/
structure Privileges where
  Create : Bool
  Update : Bool
  Delete : Bool
  deriving DecidableEq, Repr

/-- Modelled from the spec: the constants `resize`, `rebuild`, `attach`, `detach`
tagging an action (their declaration is outside the files embedded here); the spec
gives Action as a tagged variant over these four. -/
inductive ActionKind where
  | resize
  | rebuild
  | attach
  | detach
  deriving DecidableEq, Repr

/-- The struct `action`: a tag and a value (always a string in this package). -/
structure Action where
  action : ActionKind
  value : String
  deriving DecidableEq, Repr

/-- The map type `actionsByID`, keyed by droplet ID, as a key-unique association
list. -/
abbrev ActionsByID := List (Int × List Action)

/-- The map read `m[k]` with its presence flag. -/
def ActionsByID.get : ActionsByID → Int → Option (List Action)
  | [], _ => none
  | (k', v') :: rest, k => if k' = k then some v' else ActionsByID.get rest k

/-- The map write `m[k] = v`: overwrites the entry of `k` if there is one. -/
def ActionsByID.set : ActionsByID → Int → List Action → ActionsByID
  | [], k, v => [(k, v)]
  | (k', v') :: rest, k, v =>
    if k' = k then (k, v) :: rest else (k', v') :: ActionsByID.set rest k v

/-- The map `volumeNameToID`; reading a missing key gives the empty string. -/
abbrev VolumeNameToID := List (String × String)

/-- The map read `m[name]` of a `map[string]string`: the zero value when absent. -/
def VolumeNameToID.get : VolumeNameToID → String → String
  | [], _ => ""
  | (k', v') :: rest, k => if k' = k then v' else VolumeNameToID.get rest k

/-- The struct `DropletReconciler` without its client handle. -/
structure DropletReconciler where
  privileges : Privileges
  activeDroplets : List Droplet
  localDropletCreateRequests : List LocalDropletCreateRequest
  dropletsToCreate : List LocalDropletCreateRequest
  dropletsToUpdate : ActionsByID
  dropletsToDelete : List Int
  volumeNameToID : VolumeNameToID
  deriving DecidableEq, Repr

/-- The struct `ReconcileDroplets` without its client handle. -/
structure ReconcileDroplets where
  activeDroplets : List Droplet
  localDropletCreateRequests : List LocalDropletCreateRequest
  deriving DecidableEq, Repr

/-! ## The action translator (`droplets.go`) -/

/-- The function `getDropletActions`. -/
def getDropletActions (localDropletCreateRequest : LocalDropletCreateRequest)
    (activeDroplet : Droplet) : List Action :=
  let dropletActions : List Action := []
  let dropletActions :=
    match activeDroplet.Size with
    | some size =>
      if size.Slug ≠ localDropletCreateRequest.Size then
        dropletActions ++ [{ action := .resize, value := localDropletCreateRequest.Size }]
      else dropletActions
    | none => dropletActions
  let dropletActions :=
    match activeDroplet.Image with
    | some image =>
      if image.Slug ≠ localDropletCreateRequest.Image then
        dropletActions ++ [{ action := .rebuild, value := localDropletCreateRequest.Image }]
      else dropletActions
    | none => dropletActions
  dropletActions

/-- The inner loop of `volumesToDetach` and `volumesToAttach`: `volumeFound` after
ranging over `others`, set when an element equals `v`. -/
def volumeFoundLoop (v : String) (others : List String) : Bool :=
  others.foldl (fun volumeFound other => if other = v then true else volumeFound) false

/-- The function `volumesToDetach`. -/
def volumesToDetach (activeDroplet : Droplet)
    (localDropletCreateRequest : LocalDropletCreateRequest) : List Action :=
  activeDroplet.VolumeIDs.foldl
    (fun actions activeDropletVolumeID =>
      let volumeFound := volumeFoundLoop activeDropletVolumeID localDropletCreateRequest.Volumes
      if !volumeFound then
        actions ++ [{ action := .detach, value := activeDropletVolumeID }]
      else actions)
    []

/-- The method `DropletReconciler.volumesToAttach`. -/
def DropletReconciler.volumesToAttach (dr : DropletReconciler) (activeDroplet : Droplet)
    (localDropletCreateRequest : LocalDropletCreateRequest) : List Action :=
  localDropletCreateRequest.Volumes.foldl
    (fun actions localDropletCreateRequestVolume =>
      let volumeFound := volumeFoundLoop localDropletCreateRequestVolume activeDroplet.VolumeIDs
      if !volumeFound then
        actions ++ [{ action := .attach,
                      value := dr.volumeNameToID.get localDropletCreateRequestVolume }]
      else actions)
    []

/-! ## The diff engine (`droplets.go`) -/

/-- The action list `SetObjectsToUpdateAndCreate` computes for a name-matched pair. -/
def DropletReconciler.dropletActions (dr : DropletReconciler)
    (localDropletCreateRequest : LocalDropletCreateRequest) (activeDroplet : Droplet) :
    List Action :=
  let dropletActions := getDropletActions localDropletCreateRequest activeDroplet
  let dropletActions := dropletActions ++ volumesToDetach activeDroplet localDropletCreateRequest
  let dropletActions :=
    dropletActions ++ dr.volumesToAttach activeDroplet localDropletCreateRequest
  dropletActions

/-- The body of the inner loop of `SetObjectsToUpdateAndCreate`, on the pair
(`dropletIsActive`, `dropletActionsByID`). -/
def DropletReconciler.matchStep (dr : DropletReconciler)
    (localDropletCreateRequest : LocalDropletCreateRequest)
    (st : Bool × ActionsByID) (activeDroplet : Droplet) : Bool × ActionsByID :=
  if localDropletCreateRequest.Name = activeDroplet.Name then
    let dropletActions := dr.dropletActions localDropletCreateRequest activeDroplet
    let dropletActionsByID :=
      if dropletActions.length ≠ 0 then st.2.set activeDroplet.ID dropletActions else st.2
    (true, dropletActionsByID)
  else st

/-- The body of the outer loop of `SetObjectsToUpdateAndCreate`, on the pair
(`dropletsToCreate`, `dropletActionsByID`). -/
def DropletReconciler.requestStep (dr : DropletReconciler)
    (st : List LocalDropletCreateRequest × ActionsByID)
    (localDropletCreateRequest : LocalDropletCreateRequest) :
    List LocalDropletCreateRequest × ActionsByID :=
  let inner := dr.activeDroplets.foldl (dr.matchStep localDropletCreateRequest) (false, st.2)
  let dropletIsActive := inner.1
  if !dropletIsActive then (st.1 ++ [localDropletCreateRequest], inner.2)
  else (st.1, inner.2)

/-- The method `DropletReconciler.SetObjectsToUpdateAndCreate`. -/
def DropletReconciler.SetObjectsToUpdateAndCreate (dr : DropletReconciler) :
    DropletReconciler :=
  let out := dr.localDropletCreateRequests.foldl dr.requestStep ([], [])
  { dr with dropletsToUpdate := out.2, dropletsToCreate := out.1 }

/-- The loop nest shared by `SetObjectsToDelete` and `activeDropletsToDelete`. -/
def dropletsToDeleteLoop (activeDroplets : List Droplet)
    (localDropletCreateRequests : List LocalDropletCreateRequest) : List Int :=
  activeDroplets.foldl
    (fun dropletsToDelete activeDroplet =>
      let activeDropletInSpec :=
        localDropletCreateRequests.foldl
          (fun inSpec localDropletCreateRequest =>
            if localDropletCreateRequest.Name = activeDroplet.Name then true else inSpec)
          false
      if !activeDropletInSpec then dropletsToDelete ++ [activeDroplet.ID]
      else dropletsToDelete)
    []

/-- The method `DropletReconciler.SetObjectsToDelete`. -/
def DropletReconciler.SetObjectsToDelete (dr : DropletReconciler) : DropletReconciler :=
  { dr with
    dropletsToDelete := dropletsToDeleteLoop dr.activeDroplets dr.localDropletCreateRequests }

/-- The method `ReconcileDroplets.activeDropletsToDelete` (`reconcile.go`). -/
def ReconcileDroplets.activeDropletsToDelete (rd : ReconcileDroplets) : List Int :=
  dropletsToDeleteLoop rd.activeDroplets rd.localDropletCreateRequests

/-! ## Validation and translation of a create request (`droplets.go`) -/

/-- The `godo.DropletCreateImage` field the translation sets. -/
structure DropletCreateImage where
  Slug : String
  deriving DecidableEq, Repr

/-- The struct `godo.DropletCreateSSHKey`, by fingerprint. -/
structure DropletCreateSSHKey where
  Fingerprint : String
  deriving DecidableEq, Repr

/-- The `godo.DropletCreateVolume` field the translation sets. -/
structure DropletCreateVolume where
  ID : String
  deriving DecidableEq, Repr

/-- The `godo.DropletCreateRequest` fields the translation sets. -/
structure DropletCreateRequest where
  Name : String
  Region : String
  Size : String
  Image : DropletCreateImage
  SSHKeys : List DropletCreateSSHKey
  VPCUUID : String
  Volumes : List DropletCreateVolume
  Tags : List String
  UserData : String
  deriving DecidableEq, Repr

/-- The zero value `&godo.DropletCreateRequest{}`. -/
def DropletCreateRequest.zero : DropletCreateRequest :=
  { Name := "", Region := "", Size := "", Image := { Slug := "" }, SSHKeys := [],
    VPCUUID := "", Volumes := [], Tags := [], UserData := "" }

/-- The function `translateDropletCreateRequest` of `droplets.go`: the request built
so far and the error (`none` for Go's nil). A Go `len(s) != 0` is `s ≠ ""` for a
string and `s ≠ []` for a slice. -/
def translateDropletCreateRequest (localDropletCreateRequest : LocalDropletCreateRequest) :
    DropletCreateRequest × Option String :=
  let createRequest := DropletCreateRequest.zero
  if localDropletCreateRequest.Name = "" then
    (createRequest, some "droplet name not specified")
  else if localDropletCreateRequest.Region = "" then
    (createRequest, some "droplet region not specified")
  else if localDropletCreateRequest.Size = "" then
    (createRequest, some "droplet size not specified")
  else if localDropletCreateRequest.Image = "" then
    (createRequest, some "droplet image not specified")
  else
    let createRequest := { createRequest with Name := localDropletCreateRequest.Name }
    let createRequest := { createRequest with Region := localDropletCreateRequest.Region }
    let createRequest := { createRequest with Size := localDropletCreateRequest.Size }
    let dropletImage : DropletCreateImage := { Slug := localDropletCreateRequest.Image }
    let createRequest := { createRequest with Image := dropletImage }
    let createRequest :=
      if localDropletCreateRequest.SSHKeyFingerprint ≠ "" then
        let dropletCreateSSHKey : DropletCreateSSHKey :=
          { Fingerprint := localDropletCreateRequest.SSHKeyFingerprint }
        { createRequest with SSHKeys := [] ++ [dropletCreateSSHKey] }
      else createRequest
    let createRequest :=
      if localDropletCreateRequest.VPCUUID ≠ "" then
        { createRequest with VPCUUID := localDropletCreateRequest.VPCUUID }
      else createRequest
    let createRequest :=
      if localDropletCreateRequest.Volumes ≠ [] then
        let dropletCreateVolumes :=
          localDropletCreateRequest.Volumes.foldl
            (fun vols vol => vols ++ [({ ID := vol } : DropletCreateVolume)]) []
        { createRequest with Volumes := dropletCreateVolumes }
      else createRequest
    let createRequest :=
      if localDropletCreateRequest.Tags ≠ [] then
        { createRequest with Tags := localDropletCreateRequest.Tags }
      else createRequest
    let createRequest :=
      if localDropletCreateRequest.VPCUUID ≠ "" then
        { createRequest with VPCUUID := localDropletCreateRequest.VPCUUID }
      else createRequest
    let createRequest :=
      if localDropletCreateRequest.UserData.Data ≠ "" then
        { createRequest with UserData := localDropletCreateRequest.UserData.Data }
      else createRequest
    (createRequest, none)

/-! ## The provider gateway and the reconciliation driver (`droplets.go`) -/

/-- A call on the provider gateway: `dolocal.DeleteDroplet`, `dolocal.CreateDroplet`,
`dolocal.UpdateDroplet`. -/
inductive Call where
  | delete (id : Int)
  | create (request : DropletCreateRequest)
  | update (id : Int) (action : ActionKind) (value : String)
  deriving DecidableEq, Repr

/-- The provider: its answer to a call (an error, or `none` for success) given the
calls made before it. -/
abbrev Provider := List Call → Call → Option String

/-- One gateway call: the call is appended to the trace and the provider answers. -/
def callProvider (p : Provider) (trace : List Call) (c : Call) :
    List Call × Option String :=
  (trace ++ [c], p trace c)

/-- The loop of `DeleteObjects` over the IDs still to delete. -/
def deleteLoop (p : Provider) : List Int → List Call → List Call × Option String
  | [], trace => (trace, none)
  | id :: rest, trace =>
    match callProvider p trace (.delete id) with
    | (trace, some err) => (trace, some err)
    | (trace, none) => deleteLoop p rest trace

/-- The method `DropletReconciler.DeleteObjects`. -/
def DropletReconciler.DeleteObjects (dr : DropletReconciler) (p : Provider)
    (trace : List Call) : List Call × Option String :=
  deleteLoop p dr.dropletsToDelete trace

/-- The loop of `CreateObjects` over the specs still to create. -/
def createLoop (p : Provider) :
    List LocalDropletCreateRequest → List Call → List Call × Option String
  | [], trace => (trace, none)
  | dropletToCreate :: rest, trace =>
    match translateDropletCreateRequest dropletToCreate with
    | (_, some err) => (trace, some err)
    | (dropletCreateRequest, none) =>
      match callProvider p trace (.create dropletCreateRequest) with
      | (trace, some err) => (trace, some err)
      | (trace, none) => createLoop p rest trace

/-- The method `DropletReconciler.CreateObjects`. -/
def DropletReconciler.CreateObjects (dr : DropletReconciler) (p : Provider)
    (trace : List Call) : List Call × Option String :=
  createLoop p dr.dropletsToCreate trace

/-- The inner loop of `UpdateObjects`: every action of one droplet is sent, an error
is only logged. -/
def updateActionsLoop (p : Provider) (id : Int) (dropletActions : List Action)
    (trace : List Call) : List Call :=
  dropletActions.foldl
    (fun trace dropletAction =>
      match callProvider p trace (.update id dropletAction.action dropletAction.value) with
      | (trace, some _) => trace
      | (trace, none) => trace)
    trace

/-- The method `DropletReconciler.UpdateObjects`; `rangeOrder` is the order in which
the runtime ranges over the map. -/
def DropletReconciler.UpdateObjects (dr : DropletReconciler) (p : Provider)
    (rangeOrder : ActionsByID → ActionsByID) (trace : List Call) :
    List Call × Option String :=
  let trace :=
    (rangeOrder dr.dropletsToUpdate).foldl
      (fun trace entry => updateActionsLoop p entry.1 entry.2 trace) trace
  (trace, none)

/-- The method `DropletReconciler.Reconcile`. -/
def DropletReconciler.Reconcile (dr : DropletReconciler) (p : Provider)
    (rangeOrder : ActionsByID → ActionsByID) (trace : List Call) :
    List Call × Option String :=
  match (if dr.privileges.Delete then dr.DeleteObjects p trace else (trace, none)) with
  | (trace, some err) => (trace, some err)
  | (trace, none) =>
    match (if dr.privileges.Create then dr.CreateObjects p trace else (trace, none)) with
    | (trace, some err) => (trace, some err)
    | (trace, none) =>
      match (if dr.privileges.Update then dr.UpdateObjects p rangeOrder trace
             else (trace, none)) with
      | (trace, some err) => (trace, some err)
      | (trace, none) => (trace, none)

/-! ## Test fixtures (`reconcile_test.go`) -/

/-- A `godo.Droplet{ID: id, Name: name}` literal of the tests. -/
def testDroplet (id : Int) (name : String) : Droplet :=
  { ID := id, Name := name, Size := none, Image := none, Region := none, VolumeIDs := [] }

/-- A `dolocal.LocalDropletCreateRequest{Name: name}` literal of the tests. -/
def testRequest (name : String) : LocalDropletCreateRequest :=
  { Name := name, Region := "", Size := "", Image := "", SSHKeyFingerprint := "",
    VPCUUID := "", Volumes := [], Tags := [], UserData := { Data := "" } }

/-- A reconciler holding only the observed and the desired list. -/
def newTestDropletReconciler (activeDroplets : List Droplet)
    (localDropletCreateRequests : List LocalDropletCreateRequest)
    (volumeNameToID : VolumeNameToID) : DropletReconciler :=
  { privileges := { Create := true, Update := true, Delete := true },
    activeDroplets := activeDroplets,
    localDropletCreateRequests := localDropletCreateRequests,
    dropletsToCreate := [], dropletsToUpdate := [], dropletsToDelete := [],
    volumeNameToID := volumeNameToID }

/-- Test case 1: observed droplet-1,2,3 and desired droplet-3,4,5. -/
def testCase1 : DropletReconciler :=
  newTestDropletReconciler
    [testDroplet 1 "droplet-1", testDroplet 2 "droplet-2", testDroplet 3 "droplet-3"]
    [testRequest "droplet-3", testRequest "droplet-4", testRequest "droplet-5"] []

/-! ## Predicates, spec-worded rules, call lists and further fixtures -/

/-- The name test of the diff: some observed droplet has the name of `d`. -/
def nameIsActive (observed : List Droplet) (d : LocalDropletCreateRequest) : Bool :=
  observed.any (fun o => decide (d.Name = o.Name))

/-- The name test of the diff: some desired spec has the name of `o`. -/
def nameInSpec (desired : List LocalDropletCreateRequest) (o : Droplet) : Bool :=
  desired.any (fun d => decide (d.Name = o.Name))

/-- Test case 3: nothing observed, desired droplet-1,2,3. -/
def testCase3 : DropletReconciler :=
  newTestDropletReconciler []
    [testRequest "droplet-1", testRequest "droplet-2", testRequest "droplet-3"] []

/-- Observed droplet-1,2 against desired droplet-4,5: no name in common. -/
def testDisjoint : DropletReconciler :=
  newTestDropletReconciler [testDroplet 1 "droplet-1", testDroplet 2 "droplet-2"]
    [testRequest "droplet-4", testRequest "droplet-5"] []

/-- The desired spec and the observed droplet agree on what the action translator
compares: a reported size slug is the desired size, a reported image slug is the desired
image, and the attached volume IDs are the strings listed as the spec's volumes. -/
def inSync (d : LocalDropletCreateRequest) (o : Droplet) : Bool :=
  o.Size.all (fun s => decide (s.Slug = d.Size))
    && o.Image.all (fun i => decide (i.Slug = d.Image))
    && o.VolumeIDs.all (fun v => decide (v ∈ d.Volumes))
    && d.Volumes.all (fun v => decide (v ∈ o.VolumeIDs))

/-- An observed droplet that reports size, image, region and one attached volume. -/
def testActive : Droplet :=
  { ID := 7, Name := "web", Size := some { Slug := "s-1vcpu-1gb" },
    Image := some { Slug := "ubuntu-20-04-x64" },
    Region := some { Slug := "lon1", Name := "london" }, VolumeIDs := ["volB"] }

/-- A desired spec that agrees with `testActive` except for its region. -/
def testDesired : LocalDropletCreateRequest :=
  { Name := "web", Region := "nyc3", Size := "s-1vcpu-1gb", Image := "ubuntu-20-04-x64",
    SSHKeyFingerprint := "", VPCUUID := "", Volumes := ["volB"], Tags := [],
    UserData := { Data := "" } }

/-- A desired spec that differs from `testActive` in size and in image. -/
def testDrifted : LocalDropletCreateRequest :=
  { testDesired with Size := "s-2vcpu-2gb", Image := "debian-11-x64" }

/-- The detach rule in the words of the spec: a detach for every attached volume ID
that is not the ID to which `volumeIndex` resolves a desired volume name. -/
def specVolumesToDetach (volumeIndex : VolumeNameToID) (o : Droplet)
    (d : LocalDropletCreateRequest) : List Action :=
  (o.VolumeIDs.filter (fun id => !decide (id ∈ d.Volumes.map volumeIndex.get))).map
    (fun id => { action := .detach, value := id })

/-- The attach rule in the words of the spec: an attach of the resolved ID for every
desired volume name whose resolved ID is not attached. -/
def specVolumesToAttach (volumeIndex : VolumeNameToID) (o : Droplet)
    (d : LocalDropletCreateRequest) : List Action :=
  (d.Volumes.filter (fun name => !decide (volumeIndex.get name ∈ o.VolumeIDs))).map
    (fun name => { action := .attach, value := volumeIndex.get name })

/-- The provider's volumes data-b and data-c, by name. -/
def testVolumeIndex : VolumeNameToID := [("data-b", "volB"), ("data-c", "volC")]

/-- An observed droplet with volA and volB attached. -/
def testAttached : Droplet :=
  { testActive with VolumeIDs := ["volA", "volB"] }

/-- A desired spec naming the volumes data-b and data-c. -/
def testNamed : LocalDropletCreateRequest :=
  { testDesired with Volumes := ["data-b", "data-c"] }

/-- The gateway call `CreateObjects` makes for a spec: the create of its translation. -/
def createCall (d : LocalDropletCreateRequest) : Call :=
  .create (translateDropletCreateRequest d).1

/-- A provider that accepts every call. -/
def acceptAll : Provider := fun _ _ => none

/-- The gateway calls `UpdateObjects` makes for the entries of the update map, in the
order the entries are ranged over. -/
def updateCalls (entries : ActionsByID) : List Call :=
  entries.flatMap (fun e => e.2.map (fun a => Call.update e.1 a.action a.value))

/-- The phase a gateway call belongs to: delete, create, update. -/
def Call.phase : Call → Nat
  | .delete _ => 0
  | .create _ => 1
  | .update _ _ _ => 2

/-- A reconciler with one ID to delete, one spec to create and two droplets to update,
the first with two actions. -/
def testPending : DropletReconciler :=
  { newTestDropletReconciler [] [] [] with
    dropletsToDelete := [3],
    dropletsToCreate := [testDesired],
    dropletsToUpdate :=
      [(7, [{ action := .resize, value := "s-2vcpu-2gb" },
            { action := .detach, value := "volA" }]),
       (9, [{ action := .rebuild, value := "debian-11-x64" }])] }

/-! ## The destroy-and-recreate variant (`reconcile.go`) -/

/-- The function `dropletNeedsUpdate`. -/
def dropletNeedsUpdate (localDropletCreateRequest : LocalDropletCreateRequest)
    (activeDroplet : Droplet) : Bool :=
  let regionChanged :=
    match activeDroplet.Region with
    | some region => decide (region.Slug ≠ localDropletCreateRequest.Region)
    | none => false
  let sizeChanged :=
    match activeDroplet.Size with
    | some size => decide (size.Slug ≠ localDropletCreateRequest.Size)
    | none => false
  let imageChanged :=
    match activeDroplet.Image with
    | some image => decide (image.Slug ≠ localDropletCreateRequest.Image)
    | none => false
  if regionChanged then true
  else if sizeChanged then true
  else if imageChanged then true
  else false

/-- The body of the inner loop of `dropletsToUpdateCreate`, on the triple
(`dropletIsActive`, `dropletsToCreate`, `dropletsToUpdate`). -/
def updateCreateMatchStep (localDropletCreateRequest : LocalDropletCreateRequest)
    (st : Bool × List LocalDropletCreateRequest × List Int) (activeDroplet : Droplet) :
    Bool × List LocalDropletCreateRequest × List Int :=
  if localDropletCreateRequest.Name = activeDroplet.Name then
    if dropletNeedsUpdate localDropletCreateRequest activeDroplet then
      (true, st.2.1 ++ [localDropletCreateRequest], st.2.2 ++ [activeDroplet.ID])
    else (true, st.2.1, st.2.2)
  else st

/-- The body of the outer loop of `dropletsToUpdateCreate`, on the pair
(`dropletsToCreate`, `dropletsToUpdate`). -/
def ReconcileDroplets.updateCreateRequestStep (rd : ReconcileDroplets)
    (st : List LocalDropletCreateRequest × List Int)
    (localDropletCreateRequest : LocalDropletCreateRequest) :
    List LocalDropletCreateRequest × List Int :=
  let inner :=
    rd.activeDroplets.foldl (updateCreateMatchStep localDropletCreateRequest)
      (false, st.1, st.2)
  let dropletIsActive := inner.1
  if !dropletIsActive then (inner.2.1 ++ [localDropletCreateRequest], inner.2.2)
  else (inner.2.1, inner.2.2)

/-- The method `ReconcileDroplets.dropletsToUpdateCreate`: the pair
(`dropletsToUpdate`, `dropletsToCreate`). -/
def ReconcileDroplets.dropletsToUpdateCreate (rd : ReconcileDroplets) :
    List Int × List LocalDropletCreateRequest :=
  let out := rd.localDropletCreateRequests.foldl rd.updateCreateRequestStep ([], [])
  (out.2, out.1)

/-! ## Populating the reconciler (`droplets.go`) -/

/-- The map write `m[name] = id` of a `map[string]string`. -/
def VolumeNameToID.set : VolumeNameToID → String → String → VolumeNameToID
  | [], k, v => [(k, v)]
  | (k', v') :: rest, k, v =>
    if k' = k then (k, v) :: rest else (k', v') :: VolumeNameToID.set rest k v

/-- The method `DropletReconciler.Populate`; `listDroplets` and `listVolumes` are the
answers of `dolocal.ListDroplets` and `dolocal.ListVolumes`. The result is the
reconciler as the call leaves it and the error returned. -/
def DropletReconciler.Populate (dr : DropletReconciler)
    (listDroplets : Except String (List Droplet))
    (listVolumes : Except String (List Volume)) : DropletReconciler × Option String :=
  match listDroplets with
  | .error err => (dr, some err)
  | .ok activeDroplets =>
    let dr := { dr with activeDroplets := activeDroplets }
    let dr := dr.SetObjectsToUpdateAndCreate
    let dr := dr.SetObjectsToDelete
    match listVolumes with
    | .error err => (dr, some err)
    | .ok activeVolumes =>
      let volumeNameToID : VolumeNameToID :=
        activeVolumes.foldl
          (fun volumeNameToID activeVolume =>
            volumeNameToID.set activeVolume.Name activeVolume.ID)
          []
      let dr := { dr with volumeNameToID := volumeNameToID }
      (dr, none)

/-! ## Fixtures of the later sections -/

/-- The droplet-1 of test case 4: it reports a region named london, with no slug. -/
def testLondon : Droplet :=
  { testDroplet 1 "droplet-1" with Region := some { Slug := "", Name := "london" } }

/-- Test case 4 of `TestDropletsToUpdateCreate`. -/
def testCase4 : ReconcileDroplets :=
  { activeDroplets := [testLondon, testDroplet 2 "droplet-2", testDroplet 3 "droplet-3"],
    localDropletCreateRequests :=
      [{ testRequest "droplet-1" with Region := "nyc3" }, testRequest "droplet-2",
       testRequest "droplet-4"] }

/-- A provider that refuses the delete of one droplet and accepts every other call. -/
def refuseDelete (id : Int) : Provider :=
  fun _ c => if c = Call.delete id then some "delete refused" else none

/-- A provider that refuses every call. -/
def refuseAll : Provider := fun _ _ => some "refused"

/-- A reconciler with three IDs to delete, next to the pending work of
`testPending`. -/
def testThreeDeletes : DropletReconciler :=
  { testPending with dropletsToDelete := [3, 4, 5] }

/-- A reconciler whose second spec to create has no region, next to the pending work of
`testPending`. -/
def testInvalidSecond : DropletReconciler :=
  { testPending with
    dropletsToCreate := [testDesired, { testDrifted with Region := "" }, testNamed] }

/-- The reconciler with the region of every observed droplet and of every desired spec
replaced: `observedRegion` and `desiredRegion` give the new regions. -/
def DropletReconciler.withRegions (dr : DropletReconciler)
    (observedRegion : Droplet → Option Region)
    (desiredRegion : LocalDropletCreateRequest → String) : DropletReconciler :=
  { dr with
    activeDroplets := dr.activeDroplets.map (fun o => { o with Region := observedRegion o }),
    localDropletCreateRequests :=
      dr.localDropletCreateRequests.map (fun d => { d with Region := desiredRegion d }) }

/-- The reconciler of one desired spec and one observed droplet, the rest of `dr`
kept. -/
def DropletReconciler.onPair (dr : DropletReconciler) (d : LocalDropletCreateRequest)
    (o : Droplet) : DropletReconciler :=
  { dr with activeDroplets := [o], localDropletCreateRequests := [d] }

/-- A second observed droplet with the name of `testActive`, under another ID. -/
def testActiveTwin : Droplet :=
  { testActive with ID := 8 }

/-- The desired spec `testDrifted` against two observed droplets of its name. -/
def testTwins : DropletReconciler :=
  newTestDropletReconciler [testActive, testActiveTwin] [testDrifted] []

/-- The test of the inner loop of `dropletsToUpdateCreate`: the observed droplet has the
name of the spec and needs an update. -/
def needsRecreate (d : LocalDropletCreateRequest) (o : Droplet) : Bool :=
  decide (d.Name = o.Name) && dropletNeedsUpdate d o

/-- The two-step diff of `Populate`: `SetObjectsToUpdateAndCreate`, then
`SetObjectsToDelete`. -/
def DropletReconciler.diff (dr : DropletReconciler) : DropletReconciler :=
  dr.SetObjectsToUpdateAndCreate.SetObjectsToDelete

/-- An observed droplet like `testActive` with no volume attached. -/
def testBare : Droplet :=
  { testActive with VolumeIDs := [] }

/-- A desired spec like `testDesired` naming the one volume data-c. -/
def testWantsVolume : LocalDropletCreateRequest :=
  { testDesired with Volumes := ["data-c"] }

/-- A new reconciler for `testWantsVolume`: nothing observed yet, no volume known. -/
def testFresh : DropletReconciler :=
  newTestDropletReconciler [] [testWantsVolume] []

/-- The provider's volume data-c with the ID volC. -/
def testVolume : Volume :=
  { ID := "volC", Name := "data-c" }

/-- A desired spec like `testDesired` naming a volume the provider does not list. -/
def testUnknownVolume : LocalDropletCreateRequest :=
  { testDesired with Volumes := ["volB", "data-x"] }

/-- The drifted spec `testDrifted` against its droplet `testActive` and an observed
droplet that no spec names. -/
def testUpdateAndDelete : DropletReconciler :=
  newTestDropletReconciler [testDroplet 1 "droplet-1", testActive] [testDrifted] []

/-- Two desired specs of the name of `testActive`: `testDrifted`, which differs from it
in size and image, then `testDesired`, which agrees with it. -/
def testDuplicateSpecs : DropletReconciler :=
  newTestDropletReconciler [testActive] [testDrifted, testDesired] []

/-- A desired spec that agrees with `testActive` in region, size and image. -/
def testLocal : LocalDropletCreateRequest :=
  { testDesired with Region := "lon1" }

/-- A second observed droplet named like `testActive`, with another ID and size. -/
def testBigTwin : Droplet :=
  { testActive with ID := 8, Size := some { Slug := "s-2vcpu-2gb" } }

/-- The spec `testLocal` against `testActive`, in sync, and `testBigTwin`, drifted. -/
def testMixedTwins : ReconcileDroplets :=
  { activeDroplets := [testActive, testBigTwin], localDropletCreateRequests := [testLocal] }

/-- The spec `testDesired` (nyc3) against two observed droplets of its name in lon1. -/
def testDriftedTwins : ReconcileDroplets :=
  { activeDroplets := [testActive, testActiveTwin],
    localDropletCreateRequests := [testDesired] }

/-! ## Loop lemmas -/

theorem foldl_flag {α : Type} (q : α → Prop) [DecidablePred q] (l : List α) (b : Bool) :
    l.foldl (fun flag x => if q x then true else flag) b
      = (b || l.any (fun x => decide (q x))) := by
  induction l generalizing b with
  | nil => simp
  | cons x xs ih =>
    simp only [List.foldl_cons, List.any_cons, ih]
    by_cases h : q x <;> simp [h]

theorem foldl_collect {α β : Type} (c : α → Bool) (f : α → β) (l : List α)
    (init : List β) :
    l.foldl (fun acc x => if c x then acc ++ [f x] else acc) init
      = init ++ (l.filter c).map f := by
  induction l generalizing init with
  | nil => simp
  | cons x xs ih =>
    simp only [List.foldl_cons, ih]
    cases h : c x <;> simp [List.filter_cons, h]

theorem volumeFoundLoop_eq (v : String) (others : List String) :
    volumeFoundLoop v others = decide (v ∈ others) := by
  unfold volumeFoundLoop
  rw [foldl_flag (fun other => other = v)]
  induction others with
  | nil => simp
  | cons x xs ih =>
    simp only [Bool.false_or] at ih
    simp only [Bool.false_or, List.any_cons, ih, List.mem_cons]
    by_cases h : x = v
    · simp [h]
    · have h2 : ¬ v = x := fun e => h e.symm
      simp [h, h2]

theorem volumesToDetach_eq (o : Droplet) (d : LocalDropletCreateRequest) :
    volumesToDetach o d
      = (o.VolumeIDs.filter (fun v => !decide (v ∈ d.Volumes))).map
          (fun v => { action := .detach, value := v }) := by
  unfold volumesToDetach
  simp only [volumeFoundLoop_eq]
  have h := foldl_collect (fun v => !decide (v ∈ d.Volumes))
    (fun v => ({ action := .detach, value := v } : Action)) o.VolumeIDs []
  simpa using h

theorem volumesToAttach_eq (dr : DropletReconciler) (o : Droplet)
    (d : LocalDropletCreateRequest) :
    dr.volumesToAttach o d
      = (d.Volumes.filter (fun v => !decide (v ∈ o.VolumeIDs))).map
          (fun v => { action := .attach, value := dr.volumeNameToID.get v }) := by
  unfold DropletReconciler.volumesToAttach
  simp only [volumeFoundLoop_eq]
  have h := foldl_collect (fun v => !decide (v ∈ o.VolumeIDs))
    (fun v => ({ action := .attach, value := dr.volumeNameToID.get v } : Action))
    d.Volumes []
  simpa using h

theorem any_decide_eq {α : Type} (q : α → Prop) [DecidablePred q] (l : List α) :
    l.any (fun x => decide (q x)) = !decide (∀ x ∈ l, ¬ q x) := by
  rw [Bool.eq_iff_iff]
  simp

theorem matchStep_of_eq (dr : DropletReconciler) (d : LocalDropletCreateRequest)
    (st : Bool × ActionsByID) (o : Droplet) (h : d.Name = o.Name) :
    dr.matchStep d st o
      = (true, if dr.dropletActions d o = [] then st.2
               else st.2.set o.ID (dr.dropletActions d o)) := by
  unfold DropletReconciler.matchStep
  by_cases he : dr.dropletActions d o = [] <;> simp [h, he]

theorem matchStep_of_ne (dr : DropletReconciler) (d : LocalDropletCreateRequest)
    (st : Bool × ActionsByID) (o : Droplet) (h : d.Name ≠ o.Name) :
    dr.matchStep d st o = st := by
  unfold DropletReconciler.matchStep
  simp [h]

theorem matchFold_fst (dr : DropletReconciler) (d : LocalDropletCreateRequest)
    (observed : List Droplet) (st : Bool × ActionsByID) :
    (observed.foldl (dr.matchStep d) st).1 = (st.1 || nameIsActive observed d) := by
  induction observed generalizing st with
  | nil => simp [nameIsActive]
  | cons o os ih =>
    rw [List.foldl_cons, ih]
    by_cases h : d.Name = o.Name
    · rw [matchStep_of_eq dr d st o h]
      simp [nameIsActive, h]
    · rw [matchStep_of_ne dr d st o h]
      simp [nameIsActive, h]

theorem requestStep_fst (dr : DropletReconciler)
    (st : List LocalDropletCreateRequest × ActionsByID) (d : LocalDropletCreateRequest) :
    (dr.requestStep st d).1
      = st.1 ++ (if nameIsActive dr.activeDroplets d then [] else [d]) := by
  unfold DropletReconciler.requestStep
  simp only [matchFold_fst, Bool.false_or]
  cases h : nameIsActive dr.activeDroplets d <;> simp

theorem requestStep_snd (dr : DropletReconciler)
    (st : List LocalDropletCreateRequest × ActionsByID) (d : LocalDropletCreateRequest) :
    (dr.requestStep st d).2 = (dr.activeDroplets.foldl (dr.matchStep d) (false, st.2)).2 := by
  unfold DropletReconciler.requestStep
  simp only [matchFold_fst, Bool.false_or]
  cases h : nameIsActive dr.activeDroplets d <;> simp

theorem requestFold_fst (dr : DropletReconciler) (desired : List LocalDropletCreateRequest)
    (st : List LocalDropletCreateRequest × ActionsByID) :
    (desired.foldl dr.requestStep st).1
      = st.1 ++ desired.filter (fun d => !nameIsActive dr.activeDroplets d) := by
  induction desired generalizing st with
  | nil => simp
  | cons d ds ih =>
    rw [List.foldl_cons, ih, requestStep_fst]
    cases h : nameIsActive dr.activeDroplets d <;> simp [List.filter_cons, h]

theorem dropletsToDeleteLoop_eq (observed : List Droplet)
    (desired : List LocalDropletCreateRequest) :
    dropletsToDeleteLoop observed desired
      = (observed.filter (fun o => !nameInSpec desired o)).map (fun o => o.ID) := by
  unfold dropletsToDeleteLoop
  have hflag : ∀ o : Droplet,
      desired.foldl (fun inSpec (d : LocalDropletCreateRequest) =>
          if d.Name = o.Name then true else inSpec) false = nameInSpec desired o := by
    intro o
    rw [foldl_flag (fun (d : LocalDropletCreateRequest) => d.Name = o.Name)]
    simp [nameInSpec]
  simp only [hflag]
  have h := foldl_collect (fun o => !nameInSpec desired o) (fun o : Droplet => o.ID)
    observed []
  simpa using h

/-! ## The create and delete lists -/

/-- C1: `SetObjectsToUpdateAndCreate` sets `dropletsToCreate` to the desired specs whose
name is the name of no observed droplet, in desired-list order; on test case 1 (observed
droplet-1,2,3, desired droplet-3,4,5) the result is droplet-4, droplet-5. -/
theorem setObjectsToUpdateAndCreate_dropletsToCreate (dr : DropletReconciler) :
    dr.SetObjectsToUpdateAndCreate.dropletsToCreate
        = dr.localDropletCreateRequests.filter
            (fun d => decide (∀ o ∈ dr.activeDroplets, d.Name ≠ o.Name))
      ∧ testCase1.SetObjectsToUpdateAndCreate.dropletsToCreate
        = [testRequest "droplet-4", testRequest "droplet-5"] := by
  refine ⟨?_, by decide⟩
  unfold DropletReconciler.SetObjectsToUpdateAndCreate
  simp only [requestFold_fst, List.nil_append]
  apply List.filter_congr
  intro d _
  simp only [nameIsActive, any_decide_eq, Bool.not_not]

/-- C2: the delete list of `ReconcileDroplets.activeDropletsToDelete` and of
`DropletReconciler.SetObjectsToDelete` is the IDs of the observed droplets whose name is
the name of no desired spec, in observed-list order; an observed droplet whose name is
in the desired list is not a member through its own entry: every member is the ID of an
observed droplet that no desired spec names. -/
theorem dropletsToDelete_eq (rd : ReconcileDroplets) (dr : DropletReconciler) :
    rd.activeDropletsToDelete
        = (rd.activeDroplets.filter
            (fun o => decide (∀ d ∈ rd.localDropletCreateRequests, d.Name ≠ o.Name))).map
            (fun o => o.ID)
      ∧ dr.SetObjectsToDelete.dropletsToDelete
        = (dr.activeDroplets.filter
            (fun o => decide (∀ d ∈ dr.localDropletCreateRequests, d.Name ≠ o.Name))).map
            (fun o => o.ID)
      ∧ (∀ id ∈ dr.SetObjectsToDelete.dropletsToDelete, ∃ o ∈ dr.activeDroplets,
          o.ID = id ∧ ∀ d ∈ dr.localDropletCreateRequests, d.Name ≠ o.Name)
      ∧ ((dr.activeDroplets.map (fun o => o.ID)).Nodup →
          ∀ o ∈ dr.activeDroplets, (∃ d ∈ dr.localDropletCreateRequests, d.Name = o.Name) →
            o.ID ∉ dr.SetObjectsToDelete.dropletsToDelete) := by
  have key : ∀ (observed : List Droplet) (desired : List LocalDropletCreateRequest),
      dropletsToDeleteLoop observed desired
        = (observed.filter (fun o => decide (∀ d ∈ desired, d.Name ≠ o.Name))).map
            (fun o => o.ID) := by
    intro observed desired
    rw [dropletsToDeleteLoop_eq]
    congr 1
    apply List.filter_congr
    intro o _
    simp only [nameInSpec, any_decide_eq, Bool.not_not]
  have sel : ∀ id ∈ dr.SetObjectsToDelete.dropletsToDelete, ∃ o ∈ dr.activeDroplets,
      o.ID = id ∧ ∀ d ∈ dr.localDropletCreateRequests, d.Name ≠ o.Name := by
    intro id hid
    have h2 : id ∈ dropletsToDeleteLoop dr.activeDroplets dr.localDropletCreateRequests := hid
    rw [key] at h2
    simp only [List.mem_map, List.mem_filter, decide_eq_true_eq] at h2
    obtain ⟨o, ⟨ho, hno⟩, rfl⟩ := h2
    exact ⟨o, ho, rfl, hno⟩
  refine ⟨key _ _, key _ _, sel, ?_⟩
  intro hnodup o ho hin hmem
  obtain ⟨o2, ho2, hid, hno⟩ := sel _ hmem
  have heq : o2 = o := List.inj_on_of_nodup_map hnodup ho2 ho hid
  obtain ⟨d, hd, hdn⟩ := hin
  exact hno d hd (heq ▸ hdn)

/-- C2, at test case 1 and at a one-droplet reconciler of the older variant. -/
theorem dropletsToDelete_eq_witness :
    testCase1.SetObjectsToDelete.dropletsToDelete = [1, 2]
      ∧ (3 : Int) ∉ testCase1.SetObjectsToDelete.dropletsToDelete := by
  have h := dropletsToDelete_eq
    { activeDroplets := testCase1.activeDroplets,
      localDropletCreateRequests := testCase1.localDropletCreateRequests } testCase1
  refine ⟨by decide, ?_⟩
  exact h.2.2.2 (by decide) (testDroplet 3 "droplet-3") (by decide)
    ⟨testRequest "droplet-3", by decide, by decide⟩

/-! ## The update map -/

theorem get_set (m : ActionsByID) (k k2 : Int) (v : List Action) :
    (m.set k v).get k2 = if k = k2 then some v else m.get k2 := by
  induction m with
  | nil => simp [ActionsByID.set, ActionsByID.get]
  | cons e rest ih =>
    obtain ⟨k1, v1⟩ := e
    by_cases h1 : k1 = k
    · by_cases h2 : k = k2
      · simp [ActionsByID.set, ActionsByID.get, h1, h2]
      · simp [ActionsByID.set, ActionsByID.get, h1, h2]
    · by_cases h2 : k1 = k2
      · subst h2
        have h3 : ¬ k = k1 := fun e => h1 e.symm
        simp [ActionsByID.set, ActionsByID.get, h1, h3]
      · simp [ActionsByID.set, ActionsByID.get, h1, h2, ih]

theorem mem_set (m : ActionsByID) (k : Int) (v : List Action) (e : Int × List Action)
    (he : e ∈ m.set k v) : e ∈ m ∨ e = (k, v) := by
  induction m with
  | nil =>
    simp only [ActionsByID.set, List.mem_singleton] at he
    exact Or.inr he
  | cons e1 rest ih =>
    obtain ⟨k1, v1⟩ := e1
    by_cases h1 : k1 = k
    · simp only [ActionsByID.set, h1, if_true, List.mem_cons] at he
      rcases he with he | he
      · exact Or.inr he
      · exact Or.inl (List.mem_cons_of_mem _ he)
    · simp only [ActionsByID.set, h1, if_false, List.mem_cons] at he
      rcases he with he | he
      · exact Or.inl (he ▸ List.mem_cons_self _ _)
      · rcases ih he with h | h
        · exact Or.inl (List.mem_cons_of_mem _ h)
        · exact Or.inr h

theorem matchFold_of_no_match (dr : DropletReconciler) (d : LocalDropletCreateRequest)
    (observed : List Droplet) (st : Bool × ActionsByID)
    (h : ∀ o ∈ observed, d.Name ≠ o.Name) :
    observed.foldl (dr.matchStep d) st = st := by
  induction observed generalizing st with
  | nil => rfl
  | cons o os ih =>
    rw [List.foldl_cons, matchStep_of_ne dr d st o (h o (List.mem_cons_self _ _))]
    exact ih st (fun o2 ho2 => h o2 (List.mem_cons_of_mem _ ho2))

theorem requestFold_snd_of_no_match (dr : DropletReconciler)
    (desired : List LocalDropletCreateRequest)
    (st : List LocalDropletCreateRequest × ActionsByID)
    (h : ∀ d ∈ desired, ∀ o ∈ dr.activeDroplets, d.Name ≠ o.Name) :
    (desired.foldl dr.requestStep st).2 = st.2 := by
  induction desired generalizing st with
  | nil => rfl
  | cons d ds ih =>
    rw [List.foldl_cons, ih _ (fun d2 hd2 => h d2 (List.mem_cons_of_mem _ hd2)),
      requestStep_snd, matchFold_of_no_match dr d _ _ (h d (List.mem_cons_self _ _))]

/-- An invariant of the update map through the inner loop: a property of the map that
every write of a matched pair keeps is kept by the loop. -/
theorem matchFold_invariant (dr : DropletReconciler) (d : LocalDropletCreateRequest)
    (inv : ActionsByID → Prop) (observed : List Droplet)
    (hstep : ∀ m, ∀ o ∈ observed, inv m → d.Name = o.Name → dr.dropletActions d o ≠ [] →
      inv (m.set o.ID (dr.dropletActions d o)))
    (st : Bool × ActionsByID) (hst : inv st.2) :
    inv (observed.foldl (dr.matchStep d) st).2 := by
  induction observed generalizing st with
  | nil => exact hst
  | cons o os ih =>
    rw [List.foldl_cons]
    apply ih (fun m o2 ho2 => hstep m o2 (List.mem_cons_of_mem _ ho2))
    by_cases h : d.Name = o.Name
    · rw [matchStep_of_eq dr d st o h]
      by_cases he : dr.dropletActions d o = []
      · simpa [he] using hst
      · simpa [he] using hstep st.2 o (List.mem_cons_self _ _) hst h he
    · rw [matchStep_of_ne dr d st o h]
      exact hst

/-- An invariant of the update map through both loops of
`SetObjectsToUpdateAndCreate`. -/
theorem requestFold_invariant (dr : DropletReconciler) (inv : ActionsByID → Prop)
    (desired : List LocalDropletCreateRequest)
    (hstep : ∀ m, ∀ d ∈ desired, ∀ o ∈ dr.activeDroplets, inv m → d.Name = o.Name →
      dr.dropletActions d o ≠ [] → inv (m.set o.ID (dr.dropletActions d o)))
    (st : List LocalDropletCreateRequest × ActionsByID) (hst : inv st.2) :
    inv (desired.foldl dr.requestStep st).2 := by
  induction desired generalizing st with
  | nil => exact hst
  | cons d ds ih =>
    rw [List.foldl_cons]
    apply ih (fun m d2 hd2 => hstep m d2 (List.mem_cons_of_mem _ hd2))
    rw [requestStep_snd]
    exact matchFold_invariant dr d inv dr.activeDroplets
      (fun m o ho => hstep m d (List.mem_cons_self _ _) o ho) _ hst

/-- C3: when no desired name is an observed name, `SetObjectsToUpdateAndCreate` followed
by `SetObjectsToDelete` gives `dropletsToCreate` = the desired list, an empty
`dropletsToUpdate`, and `dropletsToDelete` = the IDs of the observed list in order; an
empty desired list deletes every observed droplet, an empty observed list creates every
desired spec. -/
theorem disjoint_names_diff (dr : DropletReconciler) :
    ((∀ d ∈ dr.localDropletCreateRequests, ∀ o ∈ dr.activeDroplets, d.Name ≠ o.Name) →
        dr.SetObjectsToUpdateAndCreate.SetObjectsToDelete.dropletsToCreate
            = dr.localDropletCreateRequests
          ∧ dr.SetObjectsToUpdateAndCreate.SetObjectsToDelete.dropletsToUpdate = []
          ∧ dr.SetObjectsToUpdateAndCreate.SetObjectsToDelete.dropletsToDelete
            = dr.activeDroplets.map (fun o => o.ID))
      ∧ (dr.localDropletCreateRequests = [] →
          dr.SetObjectsToUpdateAndCreate.SetObjectsToDelete.dropletsToDelete
            = dr.activeDroplets.map (fun o => o.ID))
      ∧ (dr.activeDroplets = [] →
          dr.SetObjectsToUpdateAndCreate.SetObjectsToDelete.dropletsToCreate
            = dr.localDropletCreateRequests) := by
  have main : (∀ d ∈ dr.localDropletCreateRequests, ∀ o ∈ dr.activeDroplets,
      d.Name ≠ o.Name) →
        dr.SetObjectsToUpdateAndCreate.SetObjectsToDelete.dropletsToCreate
            = dr.localDropletCreateRequests
          ∧ dr.SetObjectsToUpdateAndCreate.SetObjectsToDelete.dropletsToUpdate = []
          ∧ dr.SetObjectsToUpdateAndCreate.SetObjectsToDelete.dropletsToDelete
            = dr.activeDroplets.map (fun o => o.ID) := by
    intro h
    refine ⟨?_, ?_, ?_⟩
    · show (dr.localDropletCreateRequests.foldl dr.requestStep ([], [])).1 = _
      rw [requestFold_fst]
      simp only [List.nil_append]
      apply List.filter_eq_self.mpr
      intro d hd
      simp only [nameIsActive, any_decide_eq, Bool.not_not, decide_eq_true_eq]
      exact h d hd
    · show (dr.localDropletCreateRequests.foldl dr.requestStep ([], [])).2 = _
      rw [requestFold_snd_of_no_match dr _ _ h]
    · show dropletsToDeleteLoop dr.activeDroplets dr.localDropletCreateRequests = _
      rw [dropletsToDeleteLoop_eq]
      congr 1
      apply List.filter_eq_self.mpr
      intro o ho
      simp only [nameInSpec, any_decide_eq, Bool.not_not, decide_eq_true_eq]
      exact fun d hd => h d hd o ho
  refine ⟨main, ?_, ?_⟩
  · intro hD
    exact (main (by simp [hD])).2.2
  · intro hO
    exact (main (by simp [hO])).1

/-- C3, at an observed list and a desired list with no name in common, and at test
case 3 (nothing observed). -/
theorem disjoint_names_diff_witness :
    (testDisjoint.SetObjectsToUpdateAndCreate.SetObjectsToDelete.dropletsToCreate
        = [testRequest "droplet-4", testRequest "droplet-5"]
      ∧ testDisjoint.SetObjectsToUpdateAndCreate.SetObjectsToDelete.dropletsToUpdate = []
      ∧ testDisjoint.SetObjectsToUpdateAndCreate.SetObjectsToDelete.dropletsToDelete
        = [1, 2])
      ∧ testCase3.SetObjectsToUpdateAndCreate.SetObjectsToDelete.dropletsToCreate
        = [testRequest "droplet-1", testRequest "droplet-2", testRequest "droplet-3"] :=
  ⟨(disjoint_names_diff testDisjoint).1 (by decide),
   (disjoint_names_diff testCase3).2.2 rfl⟩

/-! ## Converged pairs -/

theorem dropletActions_of_inSync (dr : DropletReconciler) (d : LocalDropletCreateRequest)
    (o : Droplet) (h : inSync d o = true) : dr.dropletActions d o = [] := by
  simp only [inSync, Bool.and_eq_true, List.all_eq_true, decide_eq_true_eq] at h
  obtain ⟨⟨⟨hs, hi⟩, hdet⟩, hatt⟩ := h
  have h1 : getDropletActions d o = [] := by
    unfold getDropletActions
    cases hS : o.Size with
    | none =>
      cases hI : o.Image with
      | none => rfl
      | some i =>
        rw [hI] at hi
        simp only [Option.all_some, decide_eq_true_eq] at hi
        simp [hi]
    | some sz =>
      rw [hS] at hs
      simp only [Option.all_some, decide_eq_true_eq] at hs
      cases hI : o.Image with
      | none => simp [hs]
      | some i =>
        rw [hI] at hi
        simp only [Option.all_some, decide_eq_true_eq] at hi
        simp [hs, hi]
  have h2 : volumesToDetach o d = [] := by
    rw [volumesToDetach_eq, List.map_eq_nil_iff, List.filter_eq_nil_iff]
    intro v hv
    simp [hdet v hv]
  have h3 : dr.volumesToAttach o d = [] := by
    rw [volumesToAttach_eq, List.map_eq_nil_iff, List.filter_eq_nil_iff]
    intro v hv
    simp [hatt v hv]
  unfold DropletReconciler.dropletActions
  simp [h1, h2, h3]

/-- C4, as stated, fails: `testDesired` and `testActive` have the same name and agree on
size, image and volumes, yet after `SetObjectsToUpdateAndCreate` the map has an entry
under the ID of `testActive`: the one written for `testDrifted`, an earlier desired spec
of the same name. -/
theorem inSync_pair_entry_of_other_spec :
    testDesired ∈ testDuplicateSpecs.localDropletCreateRequests
      ∧ testActive ∈ testDuplicateSpecs.activeDroplets
      ∧ testDesired.Name = testActive.Name
      ∧ inSync testDesired testActive = true
      ∧ testDuplicateSpecs.SetObjectsToUpdateAndCreate.dropletsToUpdate.get testActive.ID
        = some [{ action := .resize, value := "s-2vcpu-2gb" },
                { action := .rebuild, value := "debian-11-x64" }] := by
  decide

/-- C4, amended: for a desired spec and an observed droplet of the same name that agree
on size, image and volumes (the regions are unconstrained), when every other
name-matched pair of a desired spec and an observed droplet with the same droplet ID
agrees as well (there is none when names and IDs are unique),
`SetObjectsToUpdateAndCreate` leaves no entry under the droplet's ID in
`dropletsToUpdate`; the spec is not put in `dropletsToCreate`. The lists around the pair
are arbitrary. -/
theorem inSync_pair_not_updated (dr : DropletReconciler) (d : LocalDropletCreateRequest)
    (o : Droplet) (ho : o ∈ dr.activeDroplets)
    (hname : d.Name = o.Name) (hsync : inSync d o = true)
    (hothers : ∀ d2 ∈ dr.localDropletCreateRequests, ∀ o2 ∈ dr.activeDroplets,
      d2.Name = o2.Name → o2.ID = o.ID → (d2, o2) ≠ (d, o) → inSync d2 o2 = true) :
    dr.SetObjectsToUpdateAndCreate.dropletsToUpdate.get o.ID = none
      ∧ d ∉ dr.SetObjectsToUpdateAndCreate.dropletsToCreate := by
  constructor
  · show (dr.localDropletCreateRequests.foldl dr.requestStep ([], [])).2.get o.ID = none
    apply requestFold_invariant dr (fun m => m.get o.ID = none)
    · intro m d2 hd2 o2 ho2 hm hn hne
      rw [get_set]
      by_cases hid : o2.ID = o.ID
      · exfalso
        apply hne
        apply dropletActions_of_inSync
        by_cases hp : (d2, o2) = (d, o)
        · rw [Prod.mk.injEq] at hp
          rw [hp.1, hp.2]
          exact hsync
        · exact hothers d2 hd2 o2 ho2 hn hid hp
      · simp [hid, hm]
    · rfl
  · show d ∉ (dr.localDropletCreateRequests.foldl dr.requestStep ([], [])).1
    rw [requestFold_fst]
    simp only [List.nil_append, List.mem_filter, not_and, Bool.not_eq_true,
      Bool.not_eq_false_eq_eq_true]
    intro _
    simp only [nameIsActive, List.any_eq_true, decide_eq_true_eq]
    exact ⟨o, ho, hname⟩

/-- C4 amended, at a pair that agrees on size, image and volumes and differs in region,
next to an unrelated droplet, an unrelated spec and a second spec of the same name that
agrees as well. -/
theorem inSync_pair_not_updated_witness :
    (newTestDropletReconciler [testDroplet 1 "droplet-1", testActive]
        [testRequest "droplet-4", testDesired, testLocal]
        []).SetObjectsToUpdateAndCreate.dropletsToUpdate.get testActive.ID = none
      ∧ testDesired ∉
        (newTestDropletReconciler [testDroplet 1 "droplet-1", testActive]
          [testRequest "droplet-4", testDesired, testLocal]
          []).SetObjectsToUpdateAndCreate.dropletsToCreate :=
  inSync_pair_not_updated
    (newTestDropletReconciler [testDroplet 1 "droplet-1", testActive]
      [testRequest "droplet-4", testDesired, testLocal] [])
    testDesired testActive (by decide) (by decide) (by decide) (by decide)

/-! ## The action translator -/

/-- C5: for an observed droplet that reports a size and an image, `getDropletActions`
returns the resize to the desired size if the size slug differs, followed by the rebuild
to the desired image if the image slug differs, and nothing else; each of the two
actions is in the list exactly when its field differs. -/
theorem getDropletActions_spec (d : LocalDropletCreateRequest) (o : Droplet)
    (size : Size) (image : Image) (hsize : o.Size = some size)
    (himage : o.Image = some image) :
    getDropletActions d o
        = (if size.Slug ≠ d.Size then [{ action := .resize, value := d.Size }] else [])
          ++ (if image.Slug ≠ d.Image then [{ action := .rebuild, value := d.Image }]
              else [])
      ∧ (({ action := .resize, value := d.Size } : Action) ∈ getDropletActions d o
          ↔ size.Slug ≠ d.Size)
      ∧ (({ action := .rebuild, value := d.Image } : Action) ∈ getDropletActions d o
          ↔ image.Slug ≠ d.Image) := by
  have heq : getDropletActions d o
      = (if size.Slug ≠ d.Size then [{ action := .resize, value := d.Size }] else [])
        ++ (if image.Slug ≠ d.Image then [{ action := .rebuild, value := d.Image }]
            else []) := by
    unfold getDropletActions
    rw [hsize, himage]
    by_cases h1 : size.Slug = d.Size <;> by_cases h2 : image.Slug = d.Image <;>
      simp [h1, h2]
  refine ⟨heq, ?_, ?_⟩
  · rw [heq]
    by_cases h1 : size.Slug = d.Size <;> by_cases h2 : image.Slug = d.Image <;>
      simp [h1, h2]
  · rw [heq]
    by_cases h1 : size.Slug = d.Size <;> by_cases h2 : image.Slug = d.Image <;>
      simp [h1, h2]

/-- C5, at a pair that differs in size and in image: resize first, then rebuild. -/
theorem getDropletActions_spec_witness :
    getDropletActions testDrifted testActive
      = [{ action := .resize, value := "s-2vcpu-2gb" },
         { action := .rebuild, value := "debian-11-x64" }] :=
  (getDropletActions_spec testDrifted testActive { Slug := "s-1vcpu-1gb" }
    { Slug := "ubuntu-20-04-x64" } rfl rfl).1.trans (by decide)

/-! ## Volume reconciliation -/

/-- C6: with volA and volB attached and the desired names data-b, data-c resolving to
volB, volC, `volumesToDetach` compares the names with the attached IDs and detaches
volB as well, where the rule of the spec detaches only volA. -/
theorem volumesToDetach_unresolved_names :
    volumesToDetach testAttached testNamed
        = [{ action := .detach, value := "volA" }, { action := .detach, value := "volB" }]
      ∧ specVolumesToDetach testVolumeIndex testAttached testNamed
        = [{ action := .detach, value := "volA" }] := by
  decide

/-- C7: with volA and volB attached and the desired names data-b, data-c resolving to
volB, volC, `volumesToAttach` compares the names with the attached IDs and attaches
volB, which is attached already, where the rule of the spec attaches only volC. -/
theorem volumesToAttach_unresolved_names :
    (newTestDropletReconciler [testAttached] [testNamed] testVolumeIndex).volumesToAttach
        testAttached testNamed
        = [{ action := .attach, value := "volB" }, { action := .attach, value := "volC" }]
      ∧ specVolumesToAttach testVolumeIndex testAttached testNamed
        = [{ action := .attach, value := "volC" }] := by
  decide

/-! ## Order of the volume actions -/

theorem getDropletActions_kinds (d : LocalDropletCreateRequest) (o : Droplet) :
    ∀ a ∈ getDropletActions d o, a.action = .resize ∨ a.action = .rebuild := by
  intro a ha
  unfold getDropletActions at ha
  cases hS : o.Size <;> cases hI : o.Image <;> simp only [hS, hI] at ha
  · simp at ha
  · split at ha
    · simp at ha; simp [ha]
    · simp at ha
  · split at ha
    · simp at ha; simp [ha]
    · simp at ha
  · split at ha <;> split at ha <;> simp at ha
    · rcases ha with ha | ha <;> simp [ha]
    · simp [ha]
    · simp [ha]

theorem dropletActions_detach_before_attach (dr : DropletReconciler)
    (d : LocalDropletCreateRequest) (o : Droplet) :
    (dr.dropletActions d o).Pairwise
      (fun a b => a.action = .attach → b.action ≠ .detach) := by
  have hdet : ∀ a ∈ volumesToDetach o d, a.action = .detach := by
    intro a ha
    rw [volumesToDetach_eq, List.mem_map] at ha
    obtain ⟨v, _, rfl⟩ := ha
    rfl
  have hatt : ∀ a ∈ dr.volumesToAttach o d, a.action = .attach := by
    intro a ha
    rw [volumesToAttach_eq, List.mem_map] at ha
    obtain ⟨v, _, rfl⟩ := ha
    rfl
  have hget := getDropletActions_kinds d o
  unfold DropletReconciler.dropletActions
  simp only [List.pairwise_append]
  refine ⟨⟨?_, ?_, ?_⟩, ?_, ?_⟩
  · apply List.pairwise_of_forall_mem_list
    intro a ha b _ h
    rcases hget a ha with h2 | h2 <;> rw [h2] at h <;> exact absurd h (by decide)
  · apply List.pairwise_of_forall_mem_list
    intro a ha b _ h
    rw [hdet a ha] at h
    exact absurd h (by decide)
  · intro a ha b _ h
    rcases hget a ha with h2 | h2 <;> rw [h2] at h <;> exact absurd h (by decide)
  · apply List.pairwise_of_forall_mem_list
    intro a _ b hb _
    rw [hatt b hb]
    decide
  · intro a ha b hb h
    rw [List.mem_append] at ha
    rw [hatt b hb]
    decide

/-- C8: in every action list that `SetObjectsToUpdateAndCreate` records in
`dropletsToUpdate`, no attach action is followed by a detach action: every detach comes
before every attach. -/
theorem recorded_detach_before_attach (dr : DropletReconciler) :
    ∀ e ∈ dr.SetObjectsToUpdateAndCreate.dropletsToUpdate,
      e.2.Pairwise (fun a b => a.action = .attach → b.action ≠ .detach) := by
  show ∀ e ∈ (dr.localDropletCreateRequests.foldl dr.requestStep ([], [])).2,
    e.2.Pairwise (fun a b => a.action = .attach → b.action ≠ .detach)
  apply requestFold_invariant dr
    (fun m => ∀ e ∈ m, e.2.Pairwise (fun a b => a.action = .attach → b.action ≠ .detach))
  · intro m d _ o _ hm _ _ e he
    rcases mem_set m o.ID _ e he with h | h
    · exact hm e h
    · rw [h]
      exact dropletActions_detach_before_attach dr d o
  · intro e he
    exact absurd he (List.not_mem_nil e)

/-- The recorded list of a pair with one volume to detach and one to attach: the detach
of volA, then the attach of the ID the index gives for volC (the names are IDs here). -/
theorem recorded_detach_before_attach_witness :
    (newTestDropletReconciler [testAttached]
        [{ testDesired with Volumes := ["volB", "volC"] }]
        [("volC", "volC")]).SetObjectsToUpdateAndCreate.dropletsToUpdate
      = [(7, [{ action := .detach, value := "volA" }, { action := .attach, value := "volC" }])]
    ∧ List.Pairwise (fun a b : Action => a.action = .attach → b.action ≠ .detach)
        [{ action := .detach, value := "volA" }, { action := .attach, value := "volC" }] := by
  have h := recorded_detach_before_attach
    (newTestDropletReconciler [testAttached]
      [{ testDesired with Volumes := ["volB", "volC"] }] [("volC", "volC")])
  have heq : (newTestDropletReconciler [testAttached]
        [{ testDesired with Volumes := ["volB", "volC"] }]
        [("volC", "volC")]).SetObjectsToUpdateAndCreate.dropletsToUpdate
      = [(7, [{ action := .detach, value := "volA" },
              { action := .attach, value := "volC" }])] := by decide
  refine ⟨heq, ?_⟩
  rw [heq] at h
  exact h _ (List.mem_singleton.mpr rfl)

/-! ## Validation of a create request -/

theorem createLoop_of_error (p : Provider) (d : LocalDropletCreateRequest)
    (rest : List LocalDropletCreateRequest) (trace : List Call)
    (h : (translateDropletCreateRequest d).2 ≠ none) :
    createLoop p (d :: rest) trace = (trace, (translateDropletCreateRequest d).2) := by
  unfold createLoop
  rcases hres : translateDropletCreateRequest d with ⟨req, err⟩
  rw [hres] at h
  cases err with
  | none => exact absurd rfl h
  | some e => rfl

theorem createLoop_of_valid (p : Provider) (d : LocalDropletCreateRequest)
    (rest : List LocalDropletCreateRequest) (trace : List Call)
    (h : (translateDropletCreateRequest d).2 = none) :
    createLoop p (d :: rest) trace
      = match p trace (createCall d) with
        | some err => (trace ++ [createCall d], some err)
        | none => createLoop p rest (trace ++ [createCall d]) := by
  conv => lhs; unfold createLoop
  unfold createCall
  rcases hres : translateDropletCreateRequest d with ⟨req, err⟩
  rw [hres] at h
  simp only at h
  subst h
  simp only [callProvider]
  cases p trace (Call.create req) <;> rfl

theorem createLoop_calls (p : Provider) (ds : List LocalDropletCreateRequest)
    (trace : List Call) :
    ∃ done rest, ds = done ++ rest
      ∧ (∀ x ∈ done, (translateDropletCreateRequest x).2 = none)
      ∧ (createLoop p ds trace).1 = trace ++ done.map createCall := by
  induction ds generalizing trace with
  | nil => exact ⟨[], [], rfl, by simp, by simp [createLoop]⟩
  | cons d ds ih =>
    by_cases hv : (translateDropletCreateRequest d).2 = none
    · rw [createLoop_of_valid p d ds trace hv]
      cases hp : p trace (createCall d) with
      | some err =>
        exact ⟨[d], ds, rfl, by simpa using hv, by simp⟩
      | none =>
        obtain ⟨done, rest, hsplit, hvalid, htrace⟩ := ih (trace ++ [createCall d])
        refine ⟨d :: done, rest, by simp [hsplit], ?_, ?_⟩
        · intro x hx
          rcases List.mem_cons.mp hx with h | h
          · rw [h]; exact hv
          · exact hvalid x h
        · simp only [htrace, List.map_cons, List.append_assoc, List.singleton_append]
    · rw [createLoop_of_error p d ds trace hv]
      exact ⟨[], d :: ds, rfl, by simp, by simp⟩

/-- C9: `translateDropletCreateRequest` returns an error exactly when one of name,
region, size, image of the spec is the empty string; the message names the first empty
field in the order name, region, size, image; `CreateObjects` makes no call for a spec
that fails the check: reaching it returns its error with the trace unchanged, and the
calls `CreateObjects` makes are the creates of specs that passed the check. -/
theorem translateDropletCreateRequest_error (d : LocalDropletCreateRequest) :
    ((translateDropletCreateRequest d).2 ≠ none
        ↔ (d.Name = "" ∨ d.Region = "" ∨ d.Size = "" ∨ d.Image = ""))
      ∧ (d.Name = "" →
          (translateDropletCreateRequest d).2 = some "droplet name not specified")
      ∧ (d.Name ≠ "" → d.Region = "" →
          (translateDropletCreateRequest d).2 = some "droplet region not specified")
      ∧ (d.Name ≠ "" → d.Region ≠ "" → d.Size = "" →
          (translateDropletCreateRequest d).2 = some "droplet size not specified")
      ∧ (d.Name ≠ "" → d.Region ≠ "" → d.Size ≠ "" → d.Image = "" →
          (translateDropletCreateRequest d).2 = some "droplet image not specified")
      ∧ (∀ (dr : DropletReconciler) (p : Provider) (rest : List LocalDropletCreateRequest)
          (trace : List Call), (translateDropletCreateRequest d).2 ≠ none →
          dr.dropletsToCreate = d :: rest →
          dr.CreateObjects p trace = (trace, (translateDropletCreateRequest d).2))
      ∧ (∀ (dr : DropletReconciler) (p : Provider) (trace : List Call),
          ∃ done rest, dr.dropletsToCreate = done ++ rest
            ∧ (∀ x ∈ done, (translateDropletCreateRequest x).2 = none)
            ∧ (dr.CreateObjects p trace).1 = trace ++ done.map createCall) := by
  refine ⟨?_, ?_, ?_, ?_, ?_, ?_, ?_⟩
  · unfold translateDropletCreateRequest
    by_cases h1 : d.Name = ""
    · simp [h1]
    · by_cases h2 : d.Region = ""
      · simp [h1, h2]
      · by_cases h3 : d.Size = ""
        · simp [h1, h2, h3]
        · by_cases h4 : d.Image = ""
          · simp [h1, h2, h3, h4]
          · simp [h1, h2, h3, h4]
  · intro h1
    unfold translateDropletCreateRequest
    simp [h1]
  · intro h1 h2
    unfold translateDropletCreateRequest
    simp [h1, h2]
  · intro h1 h2 h3
    unfold translateDropletCreateRequest
    simp [h1, h2, h3]
  · intro h1 h2 h3 h4
    unfold translateDropletCreateRequest
    simp [h1, h2, h3, h4]
  · intro dr p rest trace herr hlist
    unfold DropletReconciler.CreateObjects
    rw [hlist]
    exact createLoop_of_error p d rest trace herr
  · intro dr p trace
    exact createLoop_calls p dr.dropletsToCreate trace

/-- C9, at a spec with an empty name in front of a valid one: the name message, and no
call made. -/
theorem translateDropletCreateRequest_error_witness :
    (translateDropletCreateRequest { testDesired with Name := "" }).2
        = some "droplet name not specified"
      ∧ ({ newTestDropletReconciler [] [] [] with
            dropletsToCreate := [{ testDesired with Name := "" }, testDesired] }
          : DropletReconciler).CreateObjects acceptAll []
        = ([], some "droplet name not specified") := by
  have h := translateDropletCreateRequest_error { testDesired with Name := "" }
  refine ⟨h.2.1 rfl, ?_⟩
  have h2 := h.2.2.2.2.2.1
    { newTestDropletReconciler [] [] [] with
      dropletsToCreate := [{ testDesired with Name := "" }, testDesired] }
    acceptAll [testDesired] [] (by decide) rfl
  rw [h2, h.2.1 rfl]

/-! ## The phases of a reconciliation -/

theorem deleteLoop_of_ok (p : Provider) (hok : ∀ tr c, p tr c = none) (ids : List Int)
    (trace : List Call) :
    deleteLoop p ids trace = (trace ++ ids.map Call.delete, none) := by
  induction ids generalizing trace with
  | nil => simp [deleteLoop]
  | cons id rest ih =>
    unfold deleteLoop
    simp only [callProvider, hok]
    rw [ih]
    simp

theorem createLoop_of_ok (p : Provider) (hok : ∀ tr c, p tr c = none)
    (ds : List LocalDropletCreateRequest)
    (hvalid : ∀ d ∈ ds, (translateDropletCreateRequest d).2 = none) (trace : List Call) :
    createLoop p ds trace = (trace ++ ds.map createCall, none) := by
  induction ds generalizing trace with
  | nil => simp [createLoop]
  | cons d rest ih =>
    rw [createLoop_of_valid p d rest trace (hvalid d (List.mem_cons_self _ _)), hok]
    simp only
    rw [ih (fun x hx => hvalid x (List.mem_cons_of_mem _ hx))]
    simp

theorem updateActionsLoop_eq (p : Provider) (id : Int) (dropletActions : List Action)
    (trace : List Call) :
    updateActionsLoop p id dropletActions trace
      = trace ++ dropletActions.map (fun a => Call.update id a.action a.value) := by
  unfold updateActionsLoop
  induction dropletActions generalizing trace with
  | nil => simp
  | cons a rest ih =>
    rw [List.foldl_cons]
    have hstep : (match callProvider p trace (Call.update id a.action a.value) with
        | (trace, some _) => trace
        | (trace, none) => trace) = trace ++ [Call.update id a.action a.value] := by
      unfold callProvider
      cases p trace (Call.update id a.action a.value) <;> rfl
    rw [hstep, ih]
    simp

theorem updateObjects_eq (dr : DropletReconciler) (p : Provider)
    (rangeOrder : ActionsByID → ActionsByID) (trace : List Call) :
    dr.UpdateObjects p rangeOrder trace
      = (trace ++ updateCalls (rangeOrder dr.dropletsToUpdate), none) := by
  unfold DropletReconciler.UpdateObjects
  simp only [updateActionsLoop_eq]
  congr 1
  generalize rangeOrder dr.dropletsToUpdate = entries
  induction entries generalizing trace with
  | nil => simp [updateCalls]
  | cons e rest ih =>
    rw [List.foldl_cons, ih]
    simp [updateCalls, List.flatMap_cons]

/-- C10: with the three privileges granted, every spec of `dropletsToCreate` valid and
every provider call succeeding, `Reconcile` returns no error after making, in this
order, one delete per ID of `dropletsToDelete` in list order, one create per spec of
`dropletsToCreate` in list order, and the update actions of `dropletsToUpdate`, each
droplet's actions in list order; so no call of a later phase precedes a call of an
earlier one, and the update calls are those of the map whatever order it is ranged
in. -/
theorem reconcile_phase_order (dr : DropletReconciler) (p : Provider)
    (rangeOrder : ActionsByID → ActionsByID) (trace : List Call)
    (hdelete : dr.privileges.Delete = true) (hcreate : dr.privileges.Create = true)
    (hupdate : dr.privileges.Update = true)
    (hvalid : ∀ d ∈ dr.dropletsToCreate, (translateDropletCreateRequest d).2 = none)
    (hok : ∀ tr c, p tr c = none)
    (hrange : (rangeOrder dr.dropletsToUpdate).Perm dr.dropletsToUpdate) :
    dr.Reconcile p rangeOrder trace
        = (trace ++ (dr.dropletsToDelete.map Call.delete
            ++ dr.dropletsToCreate.map createCall
            ++ updateCalls (rangeOrder dr.dropletsToUpdate)), none)
      ∧ (dr.dropletsToDelete.map Call.delete ++ dr.dropletsToCreate.map createCall
          ++ updateCalls (rangeOrder dr.dropletsToUpdate)).Pairwise
            (fun a b => a.phase ≤ b.phase)
      ∧ (updateCalls (rangeOrder dr.dropletsToUpdate)).Perm
          (updateCalls dr.dropletsToUpdate) := by
  refine ⟨?_, ?_, ?_⟩
  · unfold DropletReconciler.Reconcile
    simp only [hdelete, hcreate, hupdate, if_true]
    unfold DropletReconciler.DeleteObjects DropletReconciler.CreateObjects
    rw [deleteLoop_of_ok p hok]
    simp only
    rw [createLoop_of_ok p hok _ hvalid]
    simp only
    rw [updateObjects_eq]
    simp
  · have hdel : ∀ c ∈ dr.dropletsToDelete.map Call.delete, c.phase = 0 := by
      intro c hc
      obtain ⟨id, _, rfl⟩ := List.mem_map.mp hc
      rfl
    have hcre : ∀ c ∈ dr.dropletsToCreate.map createCall, c.phase = 1 := by
      intro c hc
      obtain ⟨d, _, rfl⟩ := List.mem_map.mp hc
      rfl
    have hupd : ∀ c ∈ updateCalls (rangeOrder dr.dropletsToUpdate), c.phase = 2 := by
      intro c hc
      unfold updateCalls at hc
      obtain ⟨e, _, he⟩ := List.mem_flatMap.mp hc
      obtain ⟨a, _, rfl⟩ := List.mem_map.mp he
      rfl
    simp only [List.pairwise_append]
    refine ⟨⟨?_, ?_, ?_⟩, ?_, ?_⟩
    · apply List.pairwise_of_forall_mem_list
      intro a ha b hb
      rw [hdel a ha, hdel b hb]
    · apply List.pairwise_of_forall_mem_list
      intro a ha b hb
      rw [hcre a ha, hcre b hb]
    · intro a ha b hb
      rw [hdel a ha, hcre b hb]
      decide
    · apply List.pairwise_of_forall_mem_list
      intro a ha b hb
      rw [hupd a ha, hupd b hb]
    · intro a ha b hb
      rw [hupd b hb]
      rcases List.mem_append.mp ha with h | h
      · rw [hdel a h]; decide
      · rw [hcre a h]; decide
  · exact List.Perm.flatMap_right _ hrange

/-- C10, at `testPending` with the map ranged over in reverse: the delete, the create,
then the update of droplet 9 and the two updates of droplet 7. -/
theorem reconcile_phase_order_witness :
    testPending.Reconcile acceptAll List.reverse []
      = ([Call.delete 3, createCall testDesired,
          Call.update 9 .rebuild "debian-11-x64",
          Call.update 7 .resize "s-2vcpu-2gb",
          Call.update 7 .detach "volA"], none) :=
  (reconcile_phase_order testPending acceptAll List.reverse [] rfl rfl rfl (by decide)
    (fun _ _ => rfl) (List.reverse_perm _)).1.trans (by decide)

/-! ## Privileges and failures of the phases -/

theorem deleteLoop_calls (p : Provider) (ids : List Int) (trace : List Call) :
    ∃ done rest, ids = done ++ rest
      ∧ (deleteLoop p ids trace).1 = trace ++ done.map Call.delete := by
  induction ids generalizing trace with
  | nil => exact ⟨[], [], rfl, by simp [deleteLoop]⟩
  | cons id ids ih =>
    unfold deleteLoop
    simp only [callProvider]
    cases hp : p trace (Call.delete id) with
    | some err => exact ⟨[id], ids, rfl, by simp⟩
    | none =>
      obtain ⟨done, rest, hsplit, htrace⟩ := ih (trace ++ [Call.delete id])
      exact ⟨id :: done, rest, by simp [hsplit], by simp [htrace]⟩

theorem deleteLoop_of_refused (p : Provider) (done : List Int) (id : Int)
    (rest : List Int) (err : String) (trace : List Call)
    (hearlier : ∀ a x b, done = a ++ x :: b →
      p (trace ++ a.map Call.delete) (Call.delete x) = none)
    (hfail : p (trace ++ done.map Call.delete) (Call.delete id) = some err) :
    deleteLoop p (done ++ id :: rest) trace
      = (trace ++ (done ++ [id]).map Call.delete, some err) := by
  induction done generalizing trace with
  | nil =>
    simp only [List.nil_append, List.map_nil, List.append_nil] at hfail ⊢
    unfold deleteLoop
    simp [callProvider, hfail]
  | cons x xs ih =>
    have hx : p trace (Call.delete x) = none := by
      have h := hearlier [] x xs rfl
      simpa using h
    simp only [List.cons_append]
    unfold deleteLoop
    simp only [callProvider, hx]
    rw [ih (trace ++ [Call.delete x])]
    · simp
    · intro a y b hsplit
      have h := hearlier (x :: a) y b (by simp [hsplit])
      simpa using h
    · simpa using hfail

/-- The delete phase of `Reconcile`: what it adds to the trace. -/
theorem deletePhase_calls (dr : DropletReconciler) (p : Provider) (trace : List Call) :
    ∃ ds, (if dr.privileges.Delete then dr.DeleteObjects p trace else (trace, none)).1
        = trace ++ ds.map Call.delete
      ∧ (dr.privileges.Delete = false → ds = []) := by
  cases h : dr.privileges.Delete with
  | false => exact ⟨[], by simp, fun _ => rfl⟩
  | true =>
    obtain ⟨done, rest, _, htrace⟩ := deleteLoop_calls p dr.dropletsToDelete trace
    exact ⟨done, by simpa [DropletReconciler.DeleteObjects] using htrace, by simp⟩

/-- The create phase of `Reconcile`: what it adds to the trace. -/
theorem createPhase_calls (dr : DropletReconciler) (p : Provider) (trace : List Call) :
    ∃ cs, (if dr.privileges.Create then dr.CreateObjects p trace else (trace, none)).1
        = trace ++ cs.map createCall
      ∧ (dr.privileges.Create = false → cs = []) := by
  cases h : dr.privileges.Create with
  | false => exact ⟨[], by simp, fun _ => rfl⟩
  | true =>
    obtain ⟨done, rest, _, _, htrace⟩ := createLoop_calls p dr.dropletsToCreate trace
    exact ⟨done, by simpa [DropletReconciler.CreateObjects] using htrace, by simp⟩

/-- The update phase of `Reconcile`: what it adds to the trace; it reports no error. -/
theorem updatePhase_calls (dr : DropletReconciler) (p : Provider)
    (rangeOrder : ActionsByID → ActionsByID) (trace : List Call) :
    (if dr.privileges.Update then dr.UpdateObjects p rangeOrder trace else (trace, none))
      = (trace ++ (if dr.privileges.Update then updateCalls (rangeOrder dr.dropletsToUpdate)
                   else []), none) := by
  cases h : dr.privileges.Update with
  | false => simp
  | true => simp [updateObjects_eq]

/-- The trace of `Reconcile`: delete calls, then create calls, then update calls, each
list empty when its privilege is off. -/
theorem reconcile_calls (dr : DropletReconciler) (p : Provider)
    (rangeOrder : ActionsByID → ActionsByID) (trace : List Call) :
    ∃ ds cs us, (dr.Reconcile p rangeOrder trace).1
        = trace ++ (ds.map Call.delete ++ cs.map createCall ++ updateCalls us)
      ∧ (dr.privileges.Delete = false → ds = [])
      ∧ (dr.privileges.Create = false → cs = [])
      ∧ (dr.privileges.Update = false → us = []) := by
  unfold DropletReconciler.Reconcile
  obtain ⟨ds, hds, hdsoff⟩ := deletePhase_calls dr p trace
  generalize (if dr.privileges.Delete then dr.DeleteObjects p trace else (trace, none))
    = r1 at hds
  obtain ⟨t1, e1⟩ := r1
  simp only at hds
  cases e1 with
  | some err =>
    exact ⟨ds, [], [], by simp [hds, updateCalls], hdsoff, fun _ => rfl, fun _ => rfl⟩
  | none =>
    simp only
    obtain ⟨cs, hcs, hcsoff⟩ := createPhase_calls dr p t1
    generalize (if dr.privileges.Create then dr.CreateObjects p t1 else (t1, none))
      = r2 at hcs
    obtain ⟨t2, e2⟩ := r2
    simp only at hcs
    cases e2 with
    | some err =>
      exact ⟨ds, cs, [], by simp [hcs, hds, updateCalls], hdsoff, hcsoff, fun _ => rfl⟩
    | none =>
      simp only
      rw [updatePhase_calls]
      simp only
      refine ⟨ds, cs, if dr.privileges.Update then rangeOrder dr.dropletsToUpdate else [],
        ?_, hdsoff, hcsoff, ?_⟩
      · cases dr.privileges.Update <;> simp [hcs, hds, updateCalls]
      · intro h
        simp [h]

/-- C11: the calls `Reconcile` adds to the trace contain a delete only if
`privileges.Delete` is true, a create only if `privileges.Create` is true and an update
action only if `privileges.Update` is true; with the three flags false `Reconcile` makes
no call and returns no error. -/
theorem reconcile_respects_privileges (dr : DropletReconciler) (p : Provider)
    (rangeOrder : ActionsByID → ActionsByID) (trace : List Call) :
    (∃ calls, (dr.Reconcile p rangeOrder trace).1 = trace ++ calls
        ∧ (∀ id, Call.delete id ∈ calls → dr.privileges.Delete = true)
        ∧ (∀ request, Call.create request ∈ calls → dr.privileges.Create = true)
        ∧ (∀ id action value, Call.update id action value ∈ calls →
            dr.privileges.Update = true))
      ∧ (dr.privileges.Delete = false → dr.privileges.Create = false →
          dr.privileges.Update = false → dr.Reconcile p rangeOrder trace = (trace, none)) := by
  constructor
  · obtain ⟨ds, cs, us, htrace, hd, hc, hu⟩ := reconcile_calls dr p rangeOrder trace
    refine ⟨_, htrace, ?_, ?_, ?_⟩
    · intro id hmem
      cases h : dr.privileges.Delete with
      | true => rfl
      | false =>
        rw [hd h] at hmem
        simp [createCall, updateCalls] at hmem
    · intro request hmem
      cases h : dr.privileges.Create with
      | true => rfl
      | false =>
        rw [hc h] at hmem
        simp [updateCalls] at hmem
    · intro id action value hmem
      cases h : dr.privileges.Update with
      | true => rfl
      | false =>
        rw [hu h] at hmem
        simp [createCall, updateCalls] at hmem
  · intro hd hc hu
    unfold DropletReconciler.Reconcile
    simp [hd, hc, hu]

/-- C11, at `testPending` with only the create privilege, against a provider that
refuses every call: the one create is the only call made. -/
theorem reconcile_respects_privileges_witness :
    ({ testPending with privileges := { Create := true, Update := false, Delete := false } }
        : DropletReconciler).Reconcile refuseAll id []
        = ([createCall testDesired], some "refused")
      ∧ ({ testPending with
            privileges := { Create := false, Update := false, Delete := false } }
          : DropletReconciler).Reconcile refuseAll id [] = ([], none) :=
  ⟨by decide,
   (reconcile_respects_privileges
      { testPending with privileges := { Create := false, Update := false, Delete := false } }
      refuseAll id []).2 rfl rfl rfl⟩

/-- C12: with the delete privilege, if the provider accepts the deletes of the IDs of
`dropletsToDelete` before `id` and refuses the delete of `id` with `err`, `Reconcile`
returns `err` and the calls it made are the deletes up to and including that of `id`: no
delete of a later ID, no create and no update action. -/
theorem reconcile_delete_refused (dr : DropletReconciler) (p : Provider)
    (rangeOrder : ActionsByID → ActionsByID) (trace : List Call)
    (done : List Int) (id : Int) (rest : List Int) (err : String)
    (hdelete : dr.privileges.Delete = true)
    (hlist : dr.dropletsToDelete = done ++ id :: rest)
    (hearlier : ∀ a x b, done = a ++ x :: b →
      p (trace ++ a.map Call.delete) (Call.delete x) = none)
    (hfail : p (trace ++ done.map Call.delete) (Call.delete id) = some err) :
    dr.Reconcile p rangeOrder trace
      = (trace ++ (done ++ [id]).map Call.delete, some err) := by
  unfold DropletReconciler.Reconcile DropletReconciler.DeleteObjects
  simp only [hdelete, if_true, hlist]
  rw [deleteLoop_of_refused p done id rest err trace hearlier hfail]

/-- C12, at three IDs to delete with the second refused: two delete calls and the
error, nothing else. -/
theorem reconcile_delete_refused_witness :
    testThreeDeletes.Reconcile (refuseDelete 4) id []
      = ([Call.delete 3, Call.delete 4], some "delete refused") :=
  reconcile_delete_refused testThreeDeletes (refuseDelete 4) id [] [3] 4 [5]
    "delete refused" rfl rfl
    (by
      intro a x b h
      rcases a with _ | ⟨y, a⟩
      · simp only [List.nil_append, List.cons.injEq] at h
        obtain ⟨hx, _⟩ := h
        subst hx
        decide
      · simp at h)
    (by decide)

/-- C13: when `dropletsToCreate` is valid specs `valid`, then a spec `bad` that fails the
check, then `rest`, and the provider accepts every create, `CreateObjects` makes one
create call per spec of `valid` in order and returns the validation error of `bad`,
with no call for `bad` or for `rest`; `Reconcile` (create privilege on, the delete phase
off or without error) returns that error and makes no call after those creates: the
update phase does not run. -/
theorem createObjects_invalid_spec (dr : DropletReconciler) (p : Provider)
    (rangeOrder : ActionsByID → ActionsByID) (trace : List Call)
    (valid : List LocalDropletCreateRequest) (bad : LocalDropletCreateRequest)
    (rest : List LocalDropletCreateRequest)
    (hlist : dr.dropletsToCreate = valid ++ bad :: rest)
    (hvalid : ∀ d ∈ valid, (translateDropletCreateRequest d).2 = none)
    (hbad : (translateDropletCreateRequest bad).2 ≠ none)
    (haccept : ∀ tr request, p tr (Call.create request) = none) :
    dr.CreateObjects p trace
        = (trace ++ valid.map createCall, (translateDropletCreateRequest bad).2)
      ∧ (dr.privileges.Create = true →
          (dr.privileges.Delete = true → (dr.DeleteObjects p trace).2 = none) →
          dr.Reconcile p rangeOrder trace
            = ((if dr.privileges.Delete then (dr.DeleteObjects p trace).1 else trace)
                ++ valid.map createCall, (translateDropletCreateRequest bad).2)) := by
  have hloop : ∀ tr, createLoop p (valid ++ bad :: rest) tr
      = (tr ++ valid.map createCall, (translateDropletCreateRequest bad).2) := by
    clear hlist
    induction valid with
    | nil =>
      intro tr
      simpa using createLoop_of_error p bad rest tr hbad
    | cons d ds ih =>
      intro tr
      rw [List.cons_append,
        createLoop_of_valid p d _ tr (hvalid d (List.mem_cons_self _ _))]
      have hp : p tr (createCall d) = none := haccept tr _
      rw [hp]
      simp only
      rw [ih (fun x hx => hvalid x (List.mem_cons_of_mem _ hx))]
      simp
  constructor
  · unfold DropletReconciler.CreateObjects
    rw [hlist]
    exact hloop trace
  · intro hcreate hdel
    obtain ⟨e, he⟩ := Option.ne_none_iff_exists'.mp hbad
    unfold DropletReconciler.Reconcile
    cases hD : dr.privileges.Delete with
    | false =>
      simp only [hcreate, if_true, Bool.false_eq_true, if_false]
      unfold DropletReconciler.CreateObjects
      rw [hlist, hloop trace, he]
    | true =>
      have h2 := hdel hD
      simp only [hcreate, if_true]
      rcases hr : dr.DeleteObjects p trace with ⟨t1, e1⟩
      rw [hr] at h2
      simp only at h2
      subst h2
      simp only
      unfold DropletReconciler.CreateObjects
      rw [hlist, hloop t1, he]

/-- C13, at a create list whose second spec has no region: the first spec is created
after the delete, the region error is returned, no update action is sent. -/
theorem createObjects_invalid_spec_witness :
    testInvalidSecond.CreateObjects acceptAll []
        = ([createCall testDesired], some "droplet region not specified")
      ∧ testInvalidSecond.Reconcile acceptAll id []
        = ([Call.delete 3, createCall testDesired], some "droplet region not specified") := by
  have h := createObjects_invalid_spec testInvalidSecond acceptAll id [] [testDesired]
    { testDrifted with Region := "" } [testNamed] rfl (by decide) (by decide)
    (fun _ _ => rfl)
  refine ⟨h.1.trans (by decide), (h.2 rfl (fun _ => by decide)).trans (by decide)⟩

/-- The number of update calls for the entries of a map: the total number of recorded
actions. -/
theorem updateCalls_length (entries : ActionsByID) :
    (updateCalls entries).length = (entries.map (fun e => e.2.length)).sum := by
  induction entries with
  | nil => rfl
  | cons e rest ih =>
    simp only [updateCalls, List.flatMap_cons, List.length_append, List.length_map,
      List.map_cons, List.sum_cons] at ih ⊢
    rw [ih]

/-- C14: whatever the provider answers, `UpdateObjects` sends every action of every
droplet once, in the order the map is ranged over, and returns no error; the number of
calls is the total number of recorded actions; the error `Reconcile` returns is the one
it returns with the update phase switched off. -/
theorem updateObjects_attempts_all (dr : DropletReconciler) (p : Provider)
    (rangeOrder : ActionsByID → ActionsByID) (trace : List Call) :
    dr.UpdateObjects p rangeOrder trace
        = (trace ++ updateCalls (rangeOrder dr.dropletsToUpdate), none)
      ∧ ((rangeOrder dr.dropletsToUpdate).Perm dr.dropletsToUpdate →
          (updateCalls (rangeOrder dr.dropletsToUpdate)).Perm
              (updateCalls dr.dropletsToUpdate)
            ∧ (updateCalls (rangeOrder dr.dropletsToUpdate)).length
              = (dr.dropletsToUpdate.map (fun e => e.2.length)).sum)
      ∧ (dr.Reconcile p rangeOrder trace).2
        = (({ dr with privileges := { dr.privileges with Update := false } }
            : DropletReconciler).Reconcile p rangeOrder trace).2 := by
  refine ⟨updateObjects_eq dr p rangeOrder trace, ?_, ?_⟩
  · intro hperm
    have h := List.Perm.flatMap_right
      (fun e : Int × List Action => e.2.map (fun a => Call.update e.1 a.action a.value))
      hperm
    exact ⟨h, by rw [← updateCalls_length]; exact h.length_eq⟩
  · unfold DropletReconciler.Reconcile
    simp only [updatePhase_calls]
    simp only [DropletReconciler.DeleteObjects, DropletReconciler.CreateObjects]
    rcases (if dr.privileges.Delete = true then deleteLoop p dr.dropletsToDelete trace
      else (trace, none)) with ⟨t1, _ | e1⟩
    · simp only
      rcases (if dr.privileges.Create = true then createLoop p dr.dropletsToCreate t1
        else (t1, none)) with ⟨t2, _ | e2⟩
      · simp
      · simp
    · simp

/-- C14, at `testPending` against a provider that refuses every call, with only the
update privilege: the three update actions are all sent and no error is returned. -/
theorem updateObjects_attempts_all_witness :
    testPending.UpdateObjects refuseAll id []
        = ([Call.update 7 .resize "s-2vcpu-2gb", Call.update 7 .detach "volA",
            Call.update 9 .rebuild "debian-11-x64"], none)
      ∧ (updateCalls (id testPending.dropletsToUpdate)).length = 3 := by
  have h := updateObjects_attempts_all testPending refuseAll id []
  exact ⟨h.1.trans (by decide), ((h.2.1 (List.Perm.refl _)).2).trans (by decide)⟩

/-! ## Region drift -/

theorem dropletActions_region (dr : DropletReconciler) (d : LocalDropletCreateRequest)
    (o : Droplet) (desiredRegion : String) (observedRegion : Option Region) :
    dr.dropletActions { d with Region := desiredRegion } { o with Region := observedRegion }
      = dr.dropletActions d o := rfl

theorem setObjectsToUpdateAndCreate_withRegions (dr : DropletReconciler)
    (observedRegion : Droplet → Option Region)
    (desiredRegion : LocalDropletCreateRequest → String) :
    (dr.withRegions observedRegion desiredRegion).SetObjectsToUpdateAndCreate.dropletsToUpdate
      = dr.SetObjectsToUpdateAndCreate.dropletsToUpdate := by
  have hmatch : ∀ (d : LocalDropletCreateRequest) (st : Bool × ActionsByID) (o : Droplet),
      (dr.withRegions observedRegion desiredRegion).matchStep
          { d with Region := desiredRegion d } st { o with Region := observedRegion o }
        = dr.matchStep d st o := fun _ _ _ => rfl
  have hrequest : ∀ (st : List LocalDropletCreateRequest × ActionsByID)
      (d : LocalDropletCreateRequest),
      ((dr.withRegions observedRegion desiredRegion).requestStep st
          { d with Region := desiredRegion d }).2
        = (dr.requestStep st d).2 := by
    intro st d
    rw [requestStep_snd, requestStep_snd]
    show (List.foldl
      ((dr.withRegions observedRegion desiredRegion).matchStep
        { d with Region := desiredRegion d }) (false, st.2)
      (dr.activeDroplets.map (fun o : Droplet => { o with Region := observedRegion o }))).2
        = _
    rw [List.foldl_map]
    simp only [hmatch]
  have hfold : ∀ (desired : List LocalDropletCreateRequest)
      (st1 st2 : List LocalDropletCreateRequest × ActionsByID), st1.2 = st2.2 →
      ((desired.map (fun d => { d with Region := desiredRegion d })).foldl
          (dr.withRegions observedRegion desiredRegion).requestStep st1).2
        = (desired.foldl dr.requestStep st2).2 := by
    intro desired
    induction desired with
    | nil => intro st1 st2 h; exact h
    | cons d ds ih =>
      intro st1 st2 h
      simp only [List.map_cons, List.foldl_cons]
      apply ih
      rw [hrequest, requestStep_snd, requestStep_snd, h]
  exact hfold dr.localDropletCreateRequests ([], []) ([], []) rfl

theorem setObjectsToUpdateAndCreate_onPair (dr : DropletReconciler)
    (d : LocalDropletCreateRequest) (o : Droplet) (hname : d.Name = o.Name) :
    (dr.onPair d o).SetObjectsToUpdateAndCreate.dropletsToUpdate
      = if dr.dropletActions d o = [] then [] else [(o.ID, dr.dropletActions d o)] := by
  show (List.foldl (dr.onPair d o).requestStep ([], []) [d]).2 = _
  rw [List.foldl_cons, List.foldl_nil, requestStep_snd]
  show (List.foldl ((dr.onPair d o).matchStep d) (false, []) [o]).2 = _
  rw [List.foldl_cons, List.foldl_nil, matchStep_of_eq _ d _ o hname]
  have hact : (dr.onPair d o).dropletActions d o = dr.dropletActions d o := rfl
  rw [hact]
  by_cases h : dr.dropletActions d o = [] <;> simp [h, ActionsByID.set]

/-- C15: the actions of a matched pair do not depend on region. Replacing the regions of
the desired specs and of the observed droplets leaves `dropletsToUpdate` as it was; a
pair that agrees on size, image and volumes gets no entry whatever the two regions are;
a size or an image that differs still gives its resize or rebuild whatever the two
regions are. -/
theorem actions_independent_of_region (dr : DropletReconciler) :
    (∀ (observedRegion : Droplet → Option Region)
        (desiredRegion : LocalDropletCreateRequest → String),
        (dr.withRegions observedRegion
            desiredRegion).SetObjectsToUpdateAndCreate.dropletsToUpdate
          = dr.SetObjectsToUpdateAndCreate.dropletsToUpdate)
      ∧ (∀ (d : LocalDropletCreateRequest) (o : Droplet) (desiredRegion : String)
          (observedRegion : Option Region),
          dr.dropletActions { d with Region := desiredRegion }
              { o with Region := observedRegion }
            = dr.dropletActions d o)
      ∧ (∀ (d : LocalDropletCreateRequest) (o : Droplet) (desiredRegion : String)
          (observedRegion : Option Region), d.Name = o.Name → inSync d o = true →
          (dr.onPair { d with Region := desiredRegion }
              { o with Region := observedRegion }).SetObjectsToUpdateAndCreate.dropletsToUpdate
            = [])
      ∧ (∀ (d : LocalDropletCreateRequest) (o : Droplet) (desiredRegion : String)
          (observedRegion : Option Region) (size : Size), d.Name = o.Name →
          o.Size = some size → size.Slug ≠ d.Size →
          ∃ actions,
            (dr.onPair { d with Region := desiredRegion }
                { o with Region := observedRegion }).SetObjectsToUpdateAndCreate.dropletsToUpdate
              = [(o.ID, actions)]
            ∧ ({ action := .resize, value := d.Size } : Action) ∈ actions)
      ∧ (∀ (d : LocalDropletCreateRequest) (o : Droplet) (desiredRegion : String)
          (observedRegion : Option Region) (image : Image), d.Name = o.Name →
          o.Image = some image → image.Slug ≠ d.Image →
          ∃ actions,
            (dr.onPair { d with Region := desiredRegion }
                { o with Region := observedRegion }).SetObjectsToUpdateAndCreate.dropletsToUpdate
              = [(o.ID, actions)]
            ∧ ({ action := .rebuild, value := d.Image } : Action) ∈ actions) := by
  refine ⟨setObjectsToUpdateAndCreate_withRegions dr, fun _ _ _ _ => rfl, ?_, ?_, ?_⟩
  · intro d o desiredRegion observedRegion hname hsync
    rw [setObjectsToUpdateAndCreate_onPair dr { d with Region := desiredRegion }
      { o with Region := observedRegion } hname, dropletActions_region,
      dropletActions_of_inSync dr d o hsync]
    rfl
  · intro d o desiredRegion observedRegion size hname hsize hne
    have hmem : ({ action := .resize, value := d.Size } : Action) ∈ dr.dropletActions d o := by
      unfold DropletReconciler.dropletActions getDropletActions
      rw [hsize]
      cases o.Image with
      | none => simp [hne]
      | some im => by_cases h2 : im.Slug = d.Image <;> simp [hne, h2]
    rw [setObjectsToUpdateAndCreate_onPair dr { d with Region := desiredRegion }
      { o with Region := observedRegion } hname, dropletActions_region]
    have hnil : dr.dropletActions d o ≠ [] := List.ne_nil_of_mem hmem
    exact ⟨dr.dropletActions d o, by simp [hnil], hmem⟩
  · intro d o desiredRegion observedRegion image hname himage hne
    have hmem : ({ action := .rebuild, value := d.Image } : Action)
        ∈ dr.dropletActions d o := by
      unfold DropletReconciler.dropletActions getDropletActions
      rw [himage]
      cases o.Size with
      | none => simp [hne]
      | some sz => by_cases h2 : sz.Slug = d.Size <;> simp [hne, h2]
    rw [setObjectsToUpdateAndCreate_onPair dr { d with Region := desiredRegion }
      { o with Region := observedRegion } hname, dropletActions_region]
    have hnil : dr.dropletActions d o ≠ [] := List.ne_nil_of_mem hmem
    exact ⟨dr.dropletActions d o, by simp [hnil], hmem⟩

/-- C15, at the pair `testDesired` (nyc3) and `testActive` (lon1): no entry for the
region alone, and the resize and the rebuild of `testDrifted` with the regions as they
are or both replaced. -/
theorem actions_independent_of_region_witness :
    ((newTestDropletReconciler [] [] []).onPair testDesired
        testActive).SetObjectsToUpdateAndCreate.dropletsToUpdate = []
      ∧ ((newTestDropletReconciler [testActive] [testDrifted] []).withRegions
          (fun _ => some { Slug := "sfo3", Name := "san francisco" })
          (fun _ => "ams3")).SetObjectsToUpdateAndCreate.dropletsToUpdate
        = [(7, [{ action := .resize, value := "s-2vcpu-2gb" },
                { action := .rebuild, value := "debian-11-x64" }])] := by
  have h := actions_independent_of_region (newTestDropletReconciler [] [] [])
  have h2 := actions_independent_of_region
    (newTestDropletReconciler [testActive] [testDrifted] [])
  exact ⟨h.2.2.1 testDesired testActive "nyc3" (some { Slug := "lon1", Name := "london" })
      rfl (by decide),
    (h2.1 _ _).trans (by decide)⟩

/-! ## Observed droplets that share a name -/

theorem matchFold_records (dr : DropletReconciler) (all : List LocalDropletCreateRequest)
    (d : LocalDropletCreateRequest) (hd : d ∈ all) (o : Droplet) (hname : d.Name = o.Name)
    (hact : dr.dropletActions d o ≠ []) (observed : List Droplet)
    (hsub : ∀ x ∈ observed, x ∈ dr.activeDroplets) (ho : o ∈ observed)
    (st : Bool × ActionsByID) :
    ∃ d2 ∈ all, ∃ o2 ∈ dr.activeDroplets, d2.Name = o2.Name ∧ o2.ID = o.ID
      ∧ (observed.foldl (dr.matchStep d) st).2.get o.ID = some (dr.dropletActions d2 o2) := by
  induction observed generalizing st with
  | nil => exact absurd ho (List.not_mem_nil o)
  | cons x xs ih =>
    rw [List.foldl_cons]
    have hsubxs : ∀ y ∈ xs, y ∈ dr.activeDroplets :=
      fun y hy => hsub y (List.mem_cons_of_mem _ hy)
    rcases List.mem_cons.mp ho with hox | hoxs
    · subst hox
      apply matchFold_invariant dr d
        (fun m => ∃ d2 ∈ all, ∃ o2 ∈ dr.activeDroplets, d2.Name = o2.Name ∧ o2.ID = o.ID
          ∧ m.get o.ID = some (dr.dropletActions d2 o2)) xs
      · intro m o3 ho3 hm hn3 _
        by_cases hid : o3.ID = o.ID
        · exact ⟨d, hd, o3, hsubxs o3 ho3, hn3, hid, by rw [get_set]; simp [hid]⟩
        · obtain ⟨d2, hd2, o2, ho2, hn2, hid2, hget⟩ := hm
          exact ⟨d2, hd2, o2, ho2, hn2, hid2, by rw [get_set]; simp [hid, hget]⟩
      · rw [matchStep_of_eq dr d st o hname]
        exact ⟨d, hd, o, hsub o (List.mem_cons_self _ _), hname, rfl,
          by simp only [hact, if_false]; rw [get_set]; simp⟩
    · exact ih hsubxs hoxs _

theorem requestFold_records (dr : DropletReconciler) (all : List LocalDropletCreateRequest)
    (d : LocalDropletCreateRequest) (o : Droplet) (ho : o ∈ dr.activeDroplets)
    (hname : d.Name = o.Name) (hact : dr.dropletActions d o ≠ [])
    (desired : List LocalDropletCreateRequest) (hsub : ∀ x ∈ desired, x ∈ all)
    (hd : d ∈ desired) (st : List LocalDropletCreateRequest × ActionsByID) :
    ∃ d2 ∈ all, ∃ o2 ∈ dr.activeDroplets, d2.Name = o2.Name ∧ o2.ID = o.ID
      ∧ (desired.foldl dr.requestStep st).2.get o.ID = some (dr.dropletActions d2 o2) := by
  induction desired generalizing st with
  | nil => exact absurd hd (List.not_mem_nil d)
  | cons x xs ih =>
    rw [List.foldl_cons]
    have hsubxs : ∀ y ∈ xs, y ∈ all := fun y hy => hsub y (List.mem_cons_of_mem _ hy)
    rcases List.mem_cons.mp hd with hdx | hdxs
    · subst hdx
      apply requestFold_invariant dr
        (fun m => ∃ d2 ∈ all, ∃ o2 ∈ dr.activeDroplets, d2.Name = o2.Name ∧ o2.ID = o.ID
          ∧ m.get o.ID = some (dr.dropletActions d2 o2)) xs
      · intro m d3 hd3 o3 ho3 hm hn3 _
        by_cases hid : o3.ID = o.ID
        · exact ⟨d3, hsubxs d3 hd3, o3, ho3, hn3, hid, by rw [get_set]; simp [hid]⟩
        · obtain ⟨d2, hd2, o2, ho2, hn2, hid2, hget⟩ := hm
          exact ⟨d2, hd2, o2, ho2, hn2, hid2, by rw [get_set]; simp [hid, hget]⟩
      · rw [requestStep_snd]
        exact matchFold_records dr all d (hsub d (List.mem_cons_self _ _)) o hname hact
          dr.activeDroplets (fun _ h => h) ho _
    · exact ih hsubxs hdxs _

/-- C16, as stated, fails: with two observed droplets named like the one desired spec,
the second droplet (ID 8) receives an entry in `dropletsToUpdate` as well as the first
(ID 7). -/
theorem second_match_recorded :
    testTwins.SetObjectsToUpdateAndCreate.dropletsToUpdate
        = [(7, [{ action := .resize, value := "s-2vcpu-2gb" },
                { action := .rebuild, value := "debian-11-x64" }]),
           (8, [{ action := .resize, value := "s-2vcpu-2gb" },
                { action := .rebuild, value := "debian-11-x64" }])]
      ∧ testTwins.SetObjectsToUpdateAndCreate.dropletsToUpdate.get testActiveTwin.ID
        ≠ none := by
  decide

/-- C16, amended: `SetObjectsToUpdateAndCreate` pairs a desired spec with every observed
droplet of its name, wherever it stands in the observed list: each such droplet whose
action list for the pair is not empty has an entry in `dropletsToUpdate` under its own
ID, holding the action list of a name-matched pair with that ID; it is the list of this
very pair when no other spec has the name and no other droplet has the ID. -/
theorem every_match_recorded (dr : DropletReconciler) (d : LocalDropletCreateRequest)
    (o : Droplet) (hd : d ∈ dr.localDropletCreateRequests) (ho : o ∈ dr.activeDroplets)
    (hname : d.Name = o.Name) (hact : dr.dropletActions d o ≠ []) :
    (∃ d2 ∈ dr.localDropletCreateRequests, ∃ o2 ∈ dr.activeDroplets,
        d2.Name = o2.Name ∧ o2.ID = o.ID
          ∧ dr.SetObjectsToUpdateAndCreate.dropletsToUpdate.get o.ID
            = some (dr.dropletActions d2 o2))
      ∧ ((∀ d2 ∈ dr.localDropletCreateRequests, d2.Name = d.Name → d2 = d) →
          (∀ o2 ∈ dr.activeDroplets, o2.ID = o.ID → o2 = o) →
          dr.SetObjectsToUpdateAndCreate.dropletsToUpdate.get o.ID
            = some (dr.dropletActions d o)) := by
  have h := requestFold_records dr dr.localDropletCreateRequests d o ho hname hact
    dr.localDropletCreateRequests (fun _ h => h) hd ([], [])
  refine ⟨h, ?_⟩
  intro hdu hou
  obtain ⟨d2, hd2, o2, ho2, hn2, hid2, hget⟩ := h
  have ho2eq : o2 = o := hou o2 ho2 hid2
  subst ho2eq
  have hd2eq : d2 = d := hdu d2 hd2 (hn2.trans hname.symm)
  subst hd2eq
  exact hget

/-- C16 amended, at the second of two observed droplets named like the desired spec. -/
theorem every_match_recorded_witness :
    testTwins.SetObjectsToUpdateAndCreate.dropletsToUpdate.get 8
      = some [{ action := .resize, value := "s-2vcpu-2gb" },
              { action := .rebuild, value := "debian-11-x64" }] :=
  ((every_match_recorded testTwins testDrifted testActiveTwin (by decide) (by decide)
      (by decide) (by decide)).2 (by decide) (by decide)).trans (by decide)

/-! ## The destroy-and-recreate diff -/

theorem updateCreateMatchFold_eq (d : LocalDropletCreateRequest) (observed : List Droplet)
    (st : Bool × List LocalDropletCreateRequest × List Int) :
    observed.foldl (updateCreateMatchStep d) st
      = (st.1 || nameIsActive observed d,
         st.2.1 ++ (observed.filter (needsRecreate d)).map (fun _ => d),
         st.2.2 ++ (observed.filter (needsRecreate d)).map (fun o => o.ID)) := by
  induction observed generalizing st with
  | nil => simp [nameIsActive]
  | cons o os ih =>
    rw [List.foldl_cons, ih]
    unfold updateCreateMatchStep
    by_cases hn : d.Name = o.Name
    · cases hu : dropletNeedsUpdate d o <;>
        simp [hn, hu, nameIsActive, needsRecreate, List.filter_cons]
    · simp [hn, nameIsActive, needsRecreate, List.filter_cons]

theorem updateCreateRequestStep_eq (rd : ReconcileDroplets)
    (st : List LocalDropletCreateRequest × List Int) (d : LocalDropletCreateRequest) :
    rd.updateCreateRequestStep st d
      = (st.1 ++ ((rd.activeDroplets.filter (needsRecreate d)).map (fun _ => d)
            ++ if nameIsActive rd.activeDroplets d then [] else [d]),
         st.2 ++ (rd.activeDroplets.filter (needsRecreate d)).map (fun o => o.ID)) := by
  unfold ReconcileDroplets.updateCreateRequestStep
  simp only [updateCreateMatchFold_eq, Bool.false_or]
  cases nameIsActive rd.activeDroplets d <;> simp

theorem updateCreateRequestFold_eq (rd : ReconcileDroplets)
    (desired : List LocalDropletCreateRequest)
    (st : List LocalDropletCreateRequest × List Int) :
    desired.foldl rd.updateCreateRequestStep st
      = (st.1 ++ desired.flatMap (fun d =>
            (rd.activeDroplets.filter (needsRecreate d)).map (fun _ => d)
              ++ if nameIsActive rd.activeDroplets d then [] else [d]),
         st.2 ++ desired.flatMap (fun d =>
            (rd.activeDroplets.filter (needsRecreate d)).map (fun o => o.ID))) := by
  induction desired generalizing st with
  | nil => simp
  | cons d ds ih =>
    rw [List.foldl_cons, ih, updateCreateRequestStep_eq]
    simp [List.flatMap_cons, List.append_assoc]

theorem filter_needsRecreate_of_nodup (d : LocalDropletCreateRequest)
    (observed : List Droplet) (hnodup : (observed.map (fun o => o.Name)).Nodup) :
    (observed.filter (needsRecreate d)).map (fun _ => d)
      = if observed.any (needsRecreate d) then [d] else [] := by
  induction observed with
  | nil => simp
  | cons o os ih =>
    rw [List.map_cons, List.nodup_cons] at hnodup
    obtain ⟨hnot, hrest⟩ := hnodup
    cases hhit : needsRecreate d o with
    | false => simp [List.filter_cons, hhit, ih hrest]
    | true =>
      have hname : d.Name = o.Name := by
        simp only [needsRecreate, Bool.and_eq_true, decide_eq_true_eq] at hhit
        exact hhit.1
      have hnone : os.filter (needsRecreate d) = [] := by
        rw [List.filter_eq_nil_iff]
        intro x hx hxhit
        simp only [needsRecreate, Bool.and_eq_true, decide_eq_true_eq] at hxhit
        apply hnot
        rw [List.mem_map]
        exact ⟨x, hx, hxhit.1.symm.trans hname⟩
      simp [List.filter_cons, hhit, hnone]

theorem flatMap_ite_singleton {α : Type} (keep : α → Bool) (l : List α) :
    l.flatMap (fun x => if keep x then [x] else []) = l.filter keep := by
  induction l with
  | nil => rfl
  | cons x xs ih =>
    rw [List.flatMap_cons, ih]
    cases h : keep x <;> simp [List.filter_cons, h]

/-- C17, as stated, fails when observed droplets share a name: `testLocal` is matched by
`testActive`, which is in sync, and still is in `dropletsToCreate`, because the drifted
`testBigTwin` has its name too; and against two drifted droplets of its name
`testDesired` is in `dropletsToCreate` twice, which is not the list of the desired specs
that match no droplet or a drifted one. -/
theorem dropletsToUpdateCreate_shared_name :
    (testLocal.Name = testActive.Name
        ∧ dropletNeedsUpdate testLocal testActive = false
        ∧ testMixedTwins.dropletsToUpdateCreate = ([8], [testLocal]))
      ∧ testDriftedTwins.dropletsToUpdateCreate = ([7, 8], [testDesired, testDesired])
      ∧ testDriftedTwins.dropletsToUpdateCreate.2
        ≠ testDriftedTwins.localDropletCreateRequests.filter (fun d =>
            decide ((∀ o ∈ testDriftedTwins.activeDroplets, d.Name ≠ o.Name)
              ∨ ∃ o ∈ testDriftedTwins.activeDroplets,
                  d.Name = o.Name ∧ dropletNeedsUpdate d o = true)) := by
  decide

/-- C17, amended: `dropletsToUpdateCreate` returns as `dropletsToUpdate` the IDs of the
observed droplets that have the name of a desired spec and need an update against it,
and as `dropletsToCreate`, in desired order, every desired spec once for each observed
droplet of its name that needs an update and once if no observed droplet has its name.
So a spec is in the create list exactly when no observed droplet matches it or one that
needs an update does, a spec whose matches are all in sync is in neither list, and the
create list is the filter of the desired list when the observed names are distinct.
Test case 4 gives the ID 1 and the specs droplet-1, droplet-4. -/
theorem dropletsToUpdateCreate_spec (rd : ReconcileDroplets) :
    rd.dropletsToUpdateCreate.1
        = rd.localDropletCreateRequests.flatMap (fun d =>
            (rd.activeDroplets.filter
              (fun o => decide (d.Name = o.Name) && dropletNeedsUpdate d o)).map
              (fun o => o.ID))
      ∧ (∀ id, id ∈ rd.dropletsToUpdateCreate.1 ↔
          ∃ d ∈ rd.localDropletCreateRequests, ∃ o ∈ rd.activeDroplets,
            d.Name = o.Name ∧ dropletNeedsUpdate d o = true ∧ o.ID = id)
      ∧ (∀ d, d ∈ rd.dropletsToUpdateCreate.2 ↔
          d ∈ rd.localDropletCreateRequests
            ∧ ((∀ o ∈ rd.activeDroplets, d.Name ≠ o.Name)
              ∨ ∃ o ∈ rd.activeDroplets, d.Name = o.Name ∧ dropletNeedsUpdate d o = true))
      ∧ ((rd.activeDroplets.map (fun o => o.Name)).Nodup →
          rd.dropletsToUpdateCreate.2
            = rd.localDropletCreateRequests.filter (fun d =>
                decide ((∀ o ∈ rd.activeDroplets, d.Name ≠ o.Name)
                  ∨ ∃ o ∈ rd.activeDroplets,
                      d.Name = o.Name ∧ dropletNeedsUpdate d o = true)))
      ∧ rd.dropletsToUpdateCreate.2
        = rd.localDropletCreateRequests.flatMap (fun d =>
            (rd.activeDroplets.filter
              (fun o => decide (d.Name = o.Name) && dropletNeedsUpdate d o)).map
              (fun _ => d)
              ++ if rd.activeDroplets.any (fun o => decide (d.Name = o.Name)) then []
                 else [d])
      ∧ testCase4.dropletsToUpdateCreate
        = ([1], [{ testRequest "droplet-1" with Region := "nyc3" },
                 testRequest "droplet-4"]) := by
  have hupd : rd.dropletsToUpdateCreate.1
      = rd.localDropletCreateRequests.flatMap (fun d =>
          (rd.activeDroplets.filter (needsRecreate d)).map (fun o => o.ID)) := by
    unfold ReconcileDroplets.dropletsToUpdateCreate
    simp only [updateCreateRequestFold_eq, List.nil_append]
  have hcre : rd.dropletsToUpdateCreate.2
      = rd.localDropletCreateRequests.flatMap (fun d =>
          (rd.activeDroplets.filter (needsRecreate d)).map (fun _ => d)
            ++ if nameIsActive rd.activeDroplets d then [] else [d]) := by
    unfold ReconcileDroplets.dropletsToUpdateCreate
    simp only [updateCreateRequestFold_eq, List.nil_append]
  refine ⟨hupd, ?_, ?_, ?_, hcre, by decide⟩
  · intro id
    rw [hupd]
    simp only [List.mem_flatMap, List.mem_map, List.mem_filter, needsRecreate,
      Bool.and_eq_true, decide_eq_true_eq]
    constructor
    · rintro ⟨d, hd, o, ⟨ho, hn, hu⟩, hid⟩
      exact ⟨d, hd, o, ho, hn, hu, hid⟩
    · rintro ⟨d, hd, o, ho, hn, hu, hid⟩
      exact ⟨d, hd, o, ⟨ho, hn, hu⟩, hid⟩
  · intro d
    rw [hcre]
    simp only [List.mem_flatMap, List.mem_append, List.mem_map, List.mem_filter,
      needsRecreate, Bool.and_eq_true, decide_eq_true_eq]
    constructor
    · rintro ⟨x, hx, h | h⟩
      · obtain ⟨o, ⟨ho, hn, hu⟩, rfl⟩ := h
        exact ⟨hx, Or.inr ⟨o, ho, hn, hu⟩⟩
      · cases hact : nameIsActive rd.activeDroplets x with
        | true => simp [hact] at h
        | false =>
          simp only [hact, Bool.false_eq_true, if_false, List.mem_singleton] at h
          subst h
          refine ⟨hx, Or.inl ?_⟩
          intro o ho hn
          have : nameIsActive rd.activeDroplets d = true := by
            simp only [nameIsActive, List.any_eq_true, decide_eq_true_eq]
            exact ⟨o, ho, hn⟩
          rw [hact] at this
          exact Bool.false_ne_true this
    · rintro ⟨hd, h | ⟨o, ho, hn, hu⟩⟩
      · refine ⟨d, hd, Or.inr ?_⟩
        have : nameIsActive rd.activeDroplets d = false := by
          rw [Bool.eq_false_iff]
          intro hact
          simp only [nameIsActive, List.any_eq_true, decide_eq_true_eq] at hact
          obtain ⟨o, ho, hn⟩ := hact
          exact h o ho hn
        simp [this]
      · exact ⟨d, hd, Or.inl ⟨o, ⟨ho, hn, hu⟩, rfl⟩⟩
  · intro hnodup
    rw [hcre, ← flatMap_ite_singleton]
    congr 1
    funext d
    rw [filter_needsRecreate_of_nodup d rd.activeDroplets hnodup]
    have hany : rd.activeDroplets.any (needsRecreate d) = true →
        nameIsActive rd.activeDroplets d = true := by
      simp only [nameIsActive, needsRecreate, List.any_eq_true, Bool.and_eq_true,
        decide_eq_true_eq]
      rintro ⟨o, ho, hn, _⟩
      exact ⟨o, ho, hn⟩
    have hanyiff : rd.activeDroplets.any (needsRecreate d) = true ↔
        ∃ o ∈ rd.activeDroplets, d.Name = o.Name ∧ dropletNeedsUpdate d o = true := by
      simp only [needsRecreate, List.any_eq_true, Bool.and_eq_true, decide_eq_true_eq]
    have hactiff : nameIsActive rd.activeDroplets d = false ↔
        ∀ o ∈ rd.activeDroplets, d.Name ≠ o.Name := by
      rw [Bool.eq_false_iff]
      simp only [nameIsActive, ne_eq, List.any_eq_true, decide_eq_true_eq, not_exists,
        not_and]
    cases h1 : rd.activeDroplets.any (needsRecreate d) with
    | true =>
      have h2 := hany h1
      have h3 := hanyiff.mp h1
      simp [h2, h3]
    | false =>
      have h3 : ¬ ∃ o ∈ rd.activeDroplets, d.Name = o.Name ∧ dropletNeedsUpdate d o = true :=
        fun h => by rw [hanyiff.mpr h] at h1; exact Bool.noConfusion h1
      cases h2 : nameIsActive rd.activeDroplets d with
      | true =>
        have h4 : ¬ ∀ o ∈ rd.activeDroplets, d.Name ≠ o.Name :=
          fun h => by rw [hactiff.mpr h] at h2; exact Bool.noConfusion h2
        simp only [Bool.false_eq_true, if_false, if_true, List.append_nil]
        rw [if_neg]
        · rw [decide_eq_true_eq]
          rintro (h | h)
          · exact h4 h
          · exact h3 h
      | false =>
        have h4 := hactiff.mp h2
        simp only [Bool.false_eq_true, if_false, List.nil_append]
        rw [if_pos]
        rw [decide_eq_true_eq]
        exact Or.inl h4

/-- C17 amended, at test case 4 read through the general statement: droplet-2 is
matched by an observed droplet in sync, so it is in neither list; and at two drifted
droplets of one name, where the spec is listed once for each. -/
theorem dropletsToUpdateCreate_spec_witness :
    testRequest "droplet-2" ∉ testCase4.dropletsToUpdateCreate.2
      ∧ testCase4.dropletsToUpdateCreate.2
        = [{ testRequest "droplet-1" with Region := "nyc3" }, testRequest "droplet-4"]
      ∧ testDriftedTwins.dropletsToUpdateCreate.2 = [testDesired, testDesired] := by
  have h := dropletsToUpdateCreate_spec testCase4
  refine ⟨?_, (h.2.2.2.1 (by decide)).trans (by decide),
    ((dropletsToUpdateCreate_spec testDriftedTwins).2.2.2.2.1).trans (by decide)⟩
  rw [h.2.2.1]
  decide

/-! ## The update test of the destroy-and-recreate variant -/

/-- C18: `dropletNeedsUpdate` is true exactly when the observed droplet reports a
region, a size or an image whose slug differs from the desired one (a field the droplet
does not report is no difference); with the three fields reported, exactly when one of
the three slugs differs. On test case 4 the london droplet needs an update against nyc3,
and a droplet reporting nothing needs none. -/
theorem dropletNeedsUpdate_iff (d : LocalDropletCreateRequest) (o : Droplet) :
    (dropletNeedsUpdate d o = true ↔
        (∃ region, o.Region = some region ∧ region.Slug ≠ d.Region)
          ∨ (∃ size, o.Size = some size ∧ size.Slug ≠ d.Size)
          ∨ (∃ image, o.Image = some image ∧ image.Slug ≠ d.Image))
      ∧ (∀ region size image, o.Region = some region → o.Size = some size →
          o.Image = some image →
          (dropletNeedsUpdate d o = true ↔
            region.Slug ≠ d.Region ∨ size.Slug ≠ d.Size ∨ image.Slug ≠ d.Image))
      ∧ dropletNeedsUpdate { testRequest "droplet-1" with Region := "nyc3" } testLondon = true
      ∧ dropletNeedsUpdate (testRequest "droplet-2") (testDroplet 2 "droplet-2") = false := by
  have main : dropletNeedsUpdate d o = true ↔
      (∃ region, o.Region = some region ∧ region.Slug ≠ d.Region)
        ∨ (∃ size, o.Size = some size ∧ size.Slug ≠ d.Size)
        ∨ (∃ image, o.Image = some image ∧ image.Slug ≠ d.Image) := by
    unfold dropletNeedsUpdate
    cases hR : o.Region <;> cases hS : o.Size <;> cases hI : o.Image <;> simp
  refine ⟨main, ?_, by decide, by decide⟩
  intro region size image hR hS hI
  rw [main, hR, hS, hI]
  simp

/-- C18, at a droplet reporting the three fields, against a spec that differs in image
only. -/
theorem dropletNeedsUpdate_iff_witness :
    dropletNeedsUpdate { testDesired with Region := "lon1", Image := "debian-11-x64" }
        testActive = true
      ∧ dropletNeedsUpdate { testDesired with Region := "lon1" } testActive = false := by
  have h := (dropletNeedsUpdate_iff
    { testDesired with Region := "lon1", Image := "debian-11-x64" } testActive).2.1
    { Slug := "lon1", Name := "london" } { Slug := "s-1vcpu-1gb" }
    { Slug := "ubuntu-20-04-x64" } rfl rfl rfl
  exact ⟨h.mpr (by decide), by decide⟩

/-! ## Idempotence of the diff -/

/-- C19: running `SetObjectsToUpdateAndCreate` and `SetObjectsToDelete` again on the
state they produced changes nothing: `dropletsToCreate`, `dropletsToUpdate` and
`dropletsToDelete` are as after the first run; neither operation modifies
`activeDroplets` or `localDropletCreateRequests`; the three results are functions of the
desired list and the observed list (and, for the attach values in `dropletsToUpdate`, of
`volumeNameToID`), whatever else the state holds. -/
theorem diff_idempotent (dr : DropletReconciler) :
    (dr.diff.diff.dropletsToCreate = dr.diff.dropletsToCreate
        ∧ dr.diff.diff.dropletsToUpdate = dr.diff.dropletsToUpdate
        ∧ dr.diff.diff.dropletsToDelete = dr.diff.dropletsToDelete
        ∧ dr.diff.diff = dr.diff)
      ∧ (dr.SetObjectsToUpdateAndCreate.activeDroplets = dr.activeDroplets
        ∧ dr.SetObjectsToUpdateAndCreate.localDropletCreateRequests
          = dr.localDropletCreateRequests
        ∧ dr.SetObjectsToDelete.activeDroplets = dr.activeDroplets
        ∧ dr.SetObjectsToDelete.localDropletCreateRequests = dr.localDropletCreateRequests)
      ∧ (∀ dr2 : DropletReconciler, dr2.activeDroplets = dr.activeDroplets →
          dr2.localDropletCreateRequests = dr.localDropletCreateRequests →
          dr2.diff.dropletsToCreate = dr.diff.dropletsToCreate
            ∧ dr2.diff.dropletsToDelete = dr.diff.dropletsToDelete
            ∧ (dr2.volumeNameToID = dr.volumeNameToID →
                dr2.diff.dropletsToUpdate = dr.diff.dropletsToUpdate)) := by
  refine ⟨⟨rfl, rfl, rfl, rfl⟩, ⟨rfl, rfl, rfl, rfl⟩, ?_⟩
  intro dr2 hA hD
  have hcreate : ∀ x : DropletReconciler, x.diff.dropletsToCreate
      = x.localDropletCreateRequests.filter (fun d => !nameIsActive x.activeDroplets d) := by
    intro x
    show (x.localDropletCreateRequests.foldl x.requestStep ([], [])).1 = _
    rw [requestFold_fst]
    rfl
  have hdelete : ∀ x : DropletReconciler, x.diff.dropletsToDelete
      = dropletsToDeleteLoop x.activeDroplets x.localDropletCreateRequests := fun _ => rfl
  refine ⟨by rw [hcreate, hcreate, hA, hD], by rw [hdelete, hdelete, hA, hD], ?_⟩
  intro hV
  have hstep : dr2.requestStep = dr.requestStep := by
    funext st d
    unfold DropletReconciler.requestStep
    have hm : dr2.matchStep d = dr.matchStep d := by
      funext st2 o
      unfold DropletReconciler.matchStep DropletReconciler.dropletActions
        DropletReconciler.volumesToAttach
      rw [hV]
    rw [hm, hA]
  show (dr2.localDropletCreateRequests.foldl dr2.requestStep ([], [])).2
    = (dr.localDropletCreateRequests.foldl dr.requestStep ([], [])).2
  rw [hstep, hD]

/-- C19, at test case 1 after a first run, and at two states that hold the lists of
test case 1 and differ in what they had pending. -/
theorem diff_idempotent_witness :
    testCase1.diff.diff.dropletsToDelete = [1, 2]
      ∧ ({ testCase1 with dropletsToDelete := [9], dropletsToCreate := [testDesired] }
          : DropletReconciler).diff.dropletsToCreate
        = [testRequest "droplet-4", testRequest "droplet-5"] := by
  have h := diff_idempotent testCase1
  exact ⟨h.1.2.2.1.trans (by decide),
    ((h.2.2 { testCase1 with dropletsToDelete := [9], dropletsToCreate := [testDesired] }
      rfl rfl).1).trans (by decide)⟩

/-! ## Populating the reconciler -/

/-- C20: `Populate` computes the update actions before it builds `volumeNameToID` from
the volumes it lists, so the volume list does not reach `dropletsToUpdate`: on a new
reconciler, with the provider listing the volume data-c under the ID volC, `Populate`
returns no error and the attach action recorded for the desired volume data-c carries
the empty string, not volC. -/
theorem populate_attach_unresolved :
    (testFresh.Populate (.ok [testBare]) (.ok [testVolume])).2 = none
      ∧ (testFresh.Populate (.ok [testBare]) (.ok [testVolume])).1.dropletsToUpdate
        = [(7, [{ action := .attach, value := "" }])]
      ∧ (testFresh.Populate (.ok [testBare]) (.ok [testVolume])).1.volumeNameToID
        = [("data-c", "volC")]
      ∧ (∀ (dr : DropletReconciler) (activeDroplets : List Droplet)
          (volumes1 volumes2 : List Volume),
          (dr.Populate (.ok activeDroplets) (.ok volumes1)).1.dropletsToUpdate
            = (dr.Populate (.ok activeDroplets) (.ok volumes2)).1.dropletsToUpdate) := by
  refine ⟨by decide, by decide, by decide, ?_⟩
  intro dr activeDroplets volumes1 volumes2
  rfl

/-! ## A volume name the index does not hold -/

theorem volumeNameToID_get_of_absent (m : VolumeNameToID) (name : String)
    (h : ∀ e ∈ m, e.1 ≠ name) : m.get name = "" := by
  induction m with
  | nil => rfl
  | cons e rest ih =>
    obtain ⟨k, v⟩ := e
    have hk : ¬ k = name := h (k, v) (List.mem_cons_self _ _)
    simp only [VolumeNameToID.get, hk, if_false]
    exact ih (fun e2 he2 => h e2 (List.mem_cons_of_mem _ he2))

/-- C21: for a desired volume name that has no entry in `volumeNameToID` and is not
among the attached volume IDs of the observed droplet, `volumesToAttach` (a total
function: it cannot fail) returns a list that holds an attach action with the empty
string as its value; the list has one action per desired volume that is not among the
attached IDs, in desired order. -/
theorem volumesToAttach_unknown_name (dr : DropletReconciler) (o : Droplet)
    (d : LocalDropletCreateRequest) (name : String) (hdesired : name ∈ d.Volumes)
    (hdetached : name ∉ o.VolumeIDs) (habsent : ∀ e ∈ dr.volumeNameToID, e.1 ≠ name) :
    ({ action := .attach, value := "" } : Action) ∈ dr.volumesToAttach o d
      ∧ dr.volumesToAttach o d
        = (d.Volumes.filter (fun v => decide (v ∉ o.VolumeIDs))).map
            (fun v => { action := .attach, value := dr.volumeNameToID.get v })
      ∧ dr.volumeNameToID.get name = "" := by
  have hget := volumeNameToID_get_of_absent dr.volumeNameToID name habsent
  have heq : dr.volumesToAttach o d
      = (d.Volumes.filter (fun v => decide (v ∉ o.VolumeIDs))).map
          (fun v => { action := .attach, value := dr.volumeNameToID.get v }) := by
    rw [volumesToAttach_eq]
    congr 1
    apply List.filter_congr
    intro v _
    simp
  refine ⟨?_, heq, hget⟩
  rw [heq, List.mem_map]
  refine ⟨name, ?_, by rw [hget]⟩
  rw [List.mem_filter]
  exact ⟨hdesired, by simpa using hdetached⟩

/-- C21, at a droplet with volB attached and a spec naming volB and data-x, the index
holding data-b and data-c only: one attach, with the empty string. -/
theorem volumesToAttach_unknown_name_witness :
    (newTestDropletReconciler [testActive] [testUnknownVolume]
        testVolumeIndex).volumesToAttach testActive testUnknownVolume
      = [{ action := .attach, value := "" }] :=
  ((volumesToAttach_unknown_name
      (newTestDropletReconciler [testActive] [testUnknownVolume] testVolumeIndex)
      testActive testUnknownVolume "data-x" (by decide) (by decide) (by decide)).2.1).trans
    (by decide)

/-! ## The entries of the update map -/

/-- Every entry of the update map after `SetObjectsToUpdateAndCreate` is the non-empty
action list of a name-matched pair, under the ID of the pair's droplet. -/
theorem recorded_entry_origin (dr : DropletReconciler) :
    ∀ e ∈ dr.SetObjectsToUpdateAndCreate.dropletsToUpdate,
      ∃ d ∈ dr.localDropletCreateRequests, ∃ o ∈ dr.activeDroplets,
        d.Name = o.Name ∧ o.ID = e.1 ∧ e.2 = dr.dropletActions d o ∧ e.2 ≠ [] := by
  show ∀ e ∈ (dr.localDropletCreateRequests.foldl dr.requestStep ([], [])).2, _
  apply requestFold_invariant dr
    (fun m => ∀ e ∈ m, ∃ d ∈ dr.localDropletCreateRequests, ∃ o ∈ dr.activeDroplets,
      d.Name = o.Name ∧ o.ID = e.1 ∧ e.2 = dr.dropletActions d o ∧ e.2 ≠ [])
  · intro m d hd o ho hm hname hact e he
    rcases mem_set m o.ID _ e he with h | h
    · exact hm e h
    · rw [h]
      exact ⟨d, hd, o, ho, hname, rfl, rfl, hact⟩
  · intro e he
    exact absurd he (List.not_mem_nil e)

/-- C22: after `SetObjectsToUpdateAndCreate` every entry of `dropletsToUpdate` has a
non-empty action list and its key is the ID of an observed droplet whose name is the
name of a desired spec; a matched pair whose action list is empty writes nothing to the
map, so such a pair alone leaves the map empty. -/
theorem recorded_entries_nonempty (dr : DropletReconciler) :
    (∀ e ∈ dr.SetObjectsToUpdateAndCreate.dropletsToUpdate,
        e.2 ≠ []
          ∧ ∃ o ∈ dr.activeDroplets, o.ID = e.1
              ∧ ∃ d ∈ dr.localDropletCreateRequests, d.Name = o.Name)
      ∧ (∀ (d : LocalDropletCreateRequest) (o : Droplet) (st : Bool × ActionsByID),
          d.Name = o.Name → dr.dropletActions d o = [] → (dr.matchStep d st o).2 = st.2)
      ∧ (∀ (d : LocalDropletCreateRequest) (o : Droplet), d.Name = o.Name →
          dr.dropletActions d o = [] →
          (dr.onPair d o).SetObjectsToUpdateAndCreate.dropletsToUpdate = []) := by
  refine ⟨?_, ?_, ?_⟩
  · intro e he
    obtain ⟨d, hd, o, ho, hname, hid, _, hne⟩ := recorded_entry_origin dr e he
    exact ⟨hne, o, ho, hid, d, hd, hname⟩
  · intro d o st hname hnil
    rw [matchStep_of_eq dr d st o hname]
    simp [hnil]
  · intro d o hname hnil
    rw [setObjectsToUpdateAndCreate_onPair dr d o hname]
    simp [hnil]

/-- C22, at a drifted pair next to an unmatched droplet: the one entry is under the ID
of the matched droplet and is not empty; the pair in sync leaves the map empty. -/
theorem recorded_entries_nonempty_witness :
    testUpdateAndDelete.SetObjectsToUpdateAndCreate.dropletsToUpdate
        = [(7, [{ action := .resize, value := "s-2vcpu-2gb" },
                { action := .rebuild, value := "debian-11-x64" }])]
      ∧ ((newTestDropletReconciler [] [] []).onPair testDesired
          testActive).SetObjectsToUpdateAndCreate.dropletsToUpdate = [] :=
  ⟨by decide,
   (recorded_entries_nonempty (newTestDropletReconciler [] [] [])).2.2 testDesired
      testActive rfl (by decide)⟩

/-- C23: when the IDs of the observed droplets are pairwise distinct, after
`SetObjectsToUpdateAndCreate` and `SetObjectsToDelete` no ID is both in
`dropletsToDelete` and a key of `dropletsToUpdate`. -/
theorem delete_update_disjoint (dr : DropletReconciler)
    (hnodup : (dr.activeDroplets.map (fun o => o.ID)).Nodup) :
    ∀ id, id ∈ dr.SetObjectsToUpdateAndCreate.SetObjectsToDelete.dropletsToDelete →
      id ∉ dr.SetObjectsToUpdateAndCreate.SetObjectsToDelete.dropletsToUpdate.map
        (fun e => e.1) := by
  intro id hdel hupd
  have hdel2 : id ∈ dropletsToDeleteLoop dr.activeDroplets dr.localDropletCreateRequests :=
    hdel
  rw [dropletsToDeleteLoop_eq, List.mem_map] at hdel2
  obtain ⟨o1, ho1, hid1⟩ := hdel2
  rw [List.mem_filter] at ho1
  obtain ⟨ho1mem, hunnamed⟩ := ho1
  have hupd2 : id ∈ dr.SetObjectsToUpdateAndCreate.dropletsToUpdate.map (fun e => e.1) :=
    hupd
  rw [List.mem_map] at hupd2
  obtain ⟨e, he, hkey⟩ := hupd2
  obtain ⟨d, hd, o2, ho2, hname, hid2, _, _⟩ := recorded_entry_origin dr e he
  have hsame : o2 = o1 :=
    List.inj_on_of_nodup_map hnodup ho2 ho1mem (by rw [hid2, hkey, hid1])
  subst hsame
  have hnamed : nameInSpec dr.localDropletCreateRequests o2 = true := by
    simp only [nameInSpec, List.any_eq_true, decide_eq_true_eq]
    exact ⟨d, hd, hname⟩
  rw [hnamed] at hunnamed
  exact absurd hunnamed (by decide)

/-- C23, at a drifted pair next to an unmatched droplet: 1 is deleted, 7 is updated. -/
theorem delete_update_disjoint_witness :
    testUpdateAndDelete.SetObjectsToUpdateAndCreate.SetObjectsToDelete.dropletsToDelete = [1]
      ∧ (1 : Int) ∉
        testUpdateAndDelete.SetObjectsToUpdateAndCreate.SetObjectsToDelete.dropletsToUpdate.map
          (fun e => e.1) :=
  ⟨by decide, delete_update_disjoint testUpdateAndDelete (by decide) 1 (by decide)⟩

/-! ## Fields the observed droplet does not report -/

/-- C24: when the observed droplet reports no size, `getDropletActions` returns no
resize whatever the desired size is; when it reports no image, no rebuild whatever the
desired image is; with neither reported the list is empty for every desired spec. -/
theorem getDropletActions_unreported (d : LocalDropletCreateRequest) (o : Droplet) :
    (o.Size = none → ∀ a ∈ getDropletActions d o, a.action ≠ .resize)
      ∧ (o.Image = none → ∀ a ∈ getDropletActions d o, a.action ≠ .rebuild)
      ∧ (o.Size = none → o.Image = none → getDropletActions d o = []) := by
  refine ⟨?_, ?_, ?_⟩
  · intro hS a ha
    unfold getDropletActions at ha
    rw [hS] at ha
    cases hI : o.Image with
    | none => simp [hI] at ha
    | some image =>
      by_cases h : image.Slug = d.Image
      · simp [hI, h] at ha
      · simp [hI, h] at ha
        simp [ha]
  · intro hI a ha
    unfold getDropletActions at ha
    rw [hI] at ha
    cases hS : o.Size with
    | none => simp [hS] at ha
    | some size =>
      by_cases h : size.Slug = d.Size
      · simp [hS, h] at ha
      · simp [hS, h] at ha
        simp [ha]
  · intro hS hI
    unfold getDropletActions
    rw [hS, hI]

/-- C24, at the bare droplet of the tests against a spec with a size and an image, and
at a droplet reporting an image only. -/
theorem getDropletActions_unreported_witness :
    getDropletActions testDrifted (testDroplet 7 "web") = []
      ∧ getDropletActions testDrifted { testActive with Size := none }
        = [{ action := .rebuild, value := "debian-11-x64" }] :=
  ⟨(getDropletActions_unreported testDrifted (testDroplet 7 "web")).2.2 rfl rfl,
   by decide⟩

end Gitdrops
